import Mathlib

/-!
Verification development for the maplibre-layerlibre layer-control widget.

The JavaScript sources are shallowly embedded as pure Lean functions:

* JavaScript `Map` objects and plain-object dictionaries become association
  lists (`AList`), with `alGet`, `alSet` (replace-in-place or append,
  matching `Map.set`), and `alDel` (matching `Map.delete`).
* `StateService` (src/unnamed/part_003) becomes `StoreState` with the
  `storeSet...` functions, plus `loadPersisted` and `persist`.
* `UIManager` (src/unnamed/part_002) becomes `UIState` with the deck.gl
  registry operations (`createAndStoreDeckLayers`, `deactivateOverlay`,
  `showOverlayLayers`, `hideOverlayLayers`, `updateOverlayOpacityUI`,
  zoom-filter functions, and `activateOverlay`).
* `BusinessLogicService` (src/src/js/businessLogicService.js) becomes the
  `bls...` functions and `LayersControl` (src/src/js/layersControl.js) the
  `lc...` functions.
* Numbers are rationals; the map camera, DOM and deck.gl rendering are
  external collaborators, so only their state-relevant effects are kept
  (layer construction success is the `ok` flag on a `LayerSpec`, the
  user-supplied async loader is modelled by its eventual settlement
  `LoaderOutcome`, camera moves have no engine state).
* Synchronous event emissions are collected in an `Ev` list in order.
-/

namespace LayerLibre

/-- Association list keyed by strings, the embedding of a JS Map or plain
object used as a dictionary. -/
abbrev AList (α : Type) := List (String × α)

/-- Lookup, the embedding of Map.get / object indexing. -/
def alGet {α : Type} : AList α → String → Option α
  | [], _ => none
  | p :: rest, k => if p.1 = k then some p.2 else alGet rest k

/-- Update-or-append, the embedding of Map.set / object property assignment:
an existing key keeps its position, a new key is appended. -/
def alSet {α : Type} : AList α → String → α → AList α
  | [], k, v => [(k, v)]
  | p :: rest, k, v => if p.1 = k then (k, v) :: rest else p :: alSet rest k v

/-- Deletion, the embedding of Map.delete / the delete operator. -/
def alDel {α : Type} : AList α → String → AList α
  | [], _ => []
  | p :: rest, k => if p.1 = k then alDel rest k else p :: alDel rest k

@[simp]
theorem alGet_nil {α : Type} (k : String) : alGet ([] : AList α) k = none := rfl

theorem alGet_alSet {α : Type} (m : AList α) (k : String) (v : α) (k' : String) :
    alGet (alSet m k v) k' = if k' = k then some v else alGet m k' := by
  induction m with
  | nil =>
    simp only [alSet, alGet]
    by_cases h : k' = k
    · subst h; simp
    · rw [if_neg (fun hh => h hh.symm), if_neg h]
  | cons p rest ih =>
    simp only [alSet]
    by_cases hk : p.1 = k
    · rw [if_pos hk]
      simp only [alGet]
      by_cases h : k' = k
      · subst h; simp
      · have h1 : ¬ k = k' := fun hh => h hh.symm
        have h2 : ¬ p.1 = k' := by rw [hk]; exact h1
        rw [if_neg h1, if_neg h, if_neg h2]
    · rw [if_neg hk]
      simp only [alGet]
      rw [ih]
      by_cases h2 : p.1 = k'
      · have hkne : ¬ k' = k := fun hh => hk (h2.trans hh)
        rw [if_pos h2, if_neg hkne, if_pos h2]
      · rw [if_neg h2]
        by_cases h : k' = k
        · rw [if_pos h, if_pos h]
        · rw [if_neg h, if_neg h, if_neg h2]

theorem alGet_alSet_self {α : Type} (m : AList α) (k : String) (v : α) :
    alGet (alSet m k v) k = some v := by
  simp [alGet_alSet]

theorem alGet_alSet_ne {α : Type} (m : AList α) (k : String) (v : α) (k' : String)
    (h : k' ≠ k) : alGet (alSet m k v) k' = alGet m k' := by
  simp [alGet_alSet, h]

theorem alGet_alDel {α : Type} (m : AList α) (k k' : String) :
    alGet (alDel m k) k' = if k' = k then none else alGet m k' := by
  induction m with
  | nil =>
    simp only [alDel, alGet]
    split_ifs <;> rfl
  | cons p rest ih =>
    simp only [alDel]
    by_cases hk : p.1 = k
    · rw [if_pos hk, ih]
      simp only [alGet]
      by_cases h : k' = k
      · rw [if_pos h, if_pos h]
      · have h2 : ¬ p.1 = k' := by rw [hk]; exact fun hh => h hh.symm
        rw [if_neg h, if_neg h, if_neg h2]
    · rw [if_neg hk]
      simp only [alGet]
      rw [ih]
      by_cases h2 : p.1 = k'
      · have hkne : ¬ k' = k := fun hh => hk (h2.trans hh)
        rw [if_pos h2, if_neg hkne, if_pos h2]
      · rw [if_neg h2]
        by_cases h : k' = k
        · rw [if_pos h, if_pos h]
        · rw [if_neg h, if_neg h, if_neg h2]

theorem alGet_alDel_self {α : Type} (m : AList α) (k : String) :
    alGet (alDel m k) k = none := by
  simp [alGet_alDel]

theorem alGet_alDel_ne {α : Type} (m : AList α) (k k' : String) (h : k' ≠ k) :
    alGet (alDel m k) k' = alGet m k' := by
  simp [alGet_alDel, h]

/-- Deleting a list of keys with a fold, the embedding of repeated
Map.delete calls in a forEach loop. -/
def alDelAll {α : Type} (ks : List String) (m : AList α) : AList α :=
  ks.foldl alDel m

theorem alGet_alDelAll {α : Type} (ks : List String) (m : AList α) (k : String) :
    alGet (alDelAll ks m) k = if k ∈ ks then none else alGet m k := by
  induction ks generalizing m with
  | nil => simp [alDelAll]
  | cons a rest ih =>
    show alGet (alDelAll rest (alDel m a)) k = _
    rw [ih, alGet_alDel]
    by_cases h1 : k ∈ rest <;> by_cases h2 : k = a <;> simp [h1, h2]

/-- Per-overlay (and per-group) runtime state kept by StateService:
the visible and opacity fields. -/
structure OvState where
  visible : Bool
  opacity : ℚ
deriving Repr, DecidableEq

/-- One entry of an overlay's deckLayers configuration array. The external
deck.gl layer construction is abstracted by the ok flag: createDeckLayer in
the source returns null when the layer type is unknown or construction
throws, and a live instance otherwise. -/
structure LayerSpec where
  id : String
  ok : Bool
deriving Repr, DecidableEq

/-- Settlement of the user-supplied async onChecked loader: it eventually
resolves or rejects with a message. The loader body itself is external
input to the engine. -/
inductive LoaderOutcome where
  | resolve
  | reject (msg : String)
deriving Repr, DecidableEq

/-- Overlay configuration entry, the relevant fields of an element of
options.overlays. Zoom constraints carry both the filter spelling and the
legacy minZoomLevel / maxZoomLevel spelling, merged by getFilterConfig as
in the source. -/
structure Overlay where
  id : String
  group : Option String := none
  deckLayers : Option (List LayerSpec) := none
  onChecked : Option LoaderOutcome := none
  filterMinZoom : Option ℚ := none
  filterMaxZoom : Option ℚ := none
  minZoomLevel : Option ℚ := none
  maxZoomLevel : Option ℚ := none
  forcedBaseLayerId : Option String := none
  defaultVisible : Bool := false
  defaultOpacity : Option ℚ := none
deriving Repr, DecidableEq

/-- Base style configuration entry; style records whether the entry has a
style descriptor (applyBaseStyle is a no-op without one). -/
structure BaseStyle where
  id : String
  style : Bool := true
deriving Repr, DecidableEq

/-- The live options object shared by LayersControl, BusinessLogicService
and UIManager. -/
structure Config where
  overlays : List Overlay
  baseStyles : List BaseStyle
  defaultBaseId : Option String := none
deriving Repr, DecidableEq

/-- A live deck.gl layer instance, abstracted to its id and the opacity it
was constructed (or cloned) with. -/
structure DeckLayer where
  id : String
  opacity : ℚ
deriving Repr, DecidableEq

/-- UIManager mutable state: the two registry mappings (deckLayers and
overlayToLayerIds), the UI status maps and the zoom-filtered set. -/
structure UIState where
  deckLayers : AList DeckLayer
  overlayToLayerIds : AList (List String)
  loadingStates : AList Bool
  errorStates : AList String
  zoomFiltered : List String
deriving Repr, DecidableEq

/-- StateService mutable state. -/
structure StoreState where
  base : Option String
  overlays : AList OvState
  groups : AList OvState
  layerOrder : List String
deriving Repr, DecidableEq

/-- Combined engine state. -/
structure St where
  ui : UIState
  store : StoreState
deriving Repr, DecidableEq

/-- Events published on the shared EventEmitter, in emission order. The
change constructor is the umbrella event carrying its type tag. -/
inductive Ev where
  | loading (id : String)
  | success (id : String)
  | error (id : String) (msg : String)
  | zoomfilter (id : String) (filtered : Bool)
  | overlaychange (id : String) (visible : Bool) (opacity : ℚ)
  | overlaygroupchange (id : String) (visible : Bool)
  | basechange (id : String)
  | change (type : String)
deriving Repr, DecidableEq

/-- Fresh UIManager maps, as set up in the constructor. -/
def ui0 : UIState :=
  { deckLayers := [], overlayToLayerIds := [], loadingStates := []
  , errorStates := [], zoomFiltered := [] }

/-- Fresh StateService state, as set up in the constructor before
loadPersisted runs. -/
def store0 : StoreState :=
  { base := none, overlays := [], groups := [], layerOrder := [] }

/-- Embedding of the JS idiom parseFloat(v) or-else 0 for a numeric v:
zero (and NaN, which a rational cannot be) maps to 0, anything else to
itself. -/
def numOr0 (v : ℚ) : ℚ := if v = 0 then 0 else v

/-- Embedding of Math.max(0, Math.min(1, parseFloat(v) or-else 0)), the
clamp used by BusinessLogicService.setOverlayOpacity and
StateService.setOverlayOpacity. -/
def clamp01 (v : ℚ) : ℚ := max 0 (min 1 (numOr0 v))

/-- StateService.setOverlayVisibility: create the entry with defaults if
missing, then set its visible flag. -/
def storeSetOverlayVisibility (s : StoreState) (id : String) (v : Bool) : StoreState :=
  let cur := (alGet s.overlays id).getD { visible := false, opacity := 1 }
  { s with overlays := alSet s.overlays id { cur with visible := v } }

/-- StateService.setOverlayOpacity: create the entry with defaults if
missing, then set its opacity to the clamped value. -/
def storeSetOverlayOpacity (s : StoreState) (id : String) (v : ℚ) : StoreState :=
  let cur := (alGet s.overlays id).getD { visible := false, opacity := 1 }
  { s with overlays := alSet s.overlays id { cur with opacity := clamp01 v } }

/-- StateService.setGroupVisibility (the store-level part). -/
def storeSetGroupVisibility (s : StoreState) (id : String) (v : Bool) : StoreState :=
  let cur := (alGet s.groups id).getD { visible := false, opacity := 1 }
  { s with groups := alSet s.groups id { cur with visible := v } }

/-- StateService.setGroupOpacity. -/
def storeSetGroupOpacity (s : StoreState) (id : String) (v : ℚ) : StoreState :=
  let cur := (alGet s.groups id).getD { visible := false, opacity := 1 }
  { s with groups := alSet s.groups id { cur with opacity := clamp01 v } }

/-- StateService.setBase: store the id and emit basechange plus the
umbrella change event when the id actually changed. -/
def storeSetBase (s : StoreState) (baseId : String) : StoreState × List Ev :=
  let prev := s.base
  let s1 := { s with base := some baseId }
  if prev ≠ some baseId then
    (s1, [Ev.basechange baseId, Ev.change "basechange"])
  else
    (s1, [])

/-- StateService.removeOverlay: delete the runtime entry and drop the id
from layerOrder. -/
def storeRemoveOverlay (s : StoreState) (id : String) : StoreState :=
  { s with overlays := alDel s.overlays id
         , layerOrder := s.layerOrder.filter (fun x => x ≠ id) }

/-- StateService.initOverlay: lazily create the runtime entry from the
overlay's defaults, seeding the group entry when a visible overlay is
initialized into a not-yet-seen group. -/
def initOverlay (s : StoreState) (id : String) (config : Overlay) : StoreState :=
  match alGet s.overlays id with
  | some _ => s
  | none =>
    let visible := config.defaultVisible
    let entry : OvState := { visible := visible, opacity := config.defaultOpacity.getD 1 }
    let s1 := { s with overlays := alSet s.overlays id entry }
    if visible then
      match config.group with
      | some g =>
        match alGet s1.groups g with
        | none => { s1 with groups := alSet s1.groups g { visible := true, opacity := 1 } }
        | some _ => s1
      | none => s1
    else s1

/-- Parsed persisted blob. Each field is optional because loadPersisted
checks each saved field for presence before copying it. -/
structure Persisted where
  base : Option (Option String) := none
  overlays : Option (AList OvState) := none
  groups : Option (AList OvState) := none
  layerOrder : Option (List String) := none
deriving Repr, DecidableEq

/-- StateService loadPersisted: merge whatever fields the stored blob has
into the fresh state. A missing or unparsable blob is the none case and
leaves the state untouched. Note that the saved overlay and group maps are
copied wholesale, with no reconciliation against the current
configuration. -/
def loadPersisted (raw : Option Persisted) (s : StoreState) : StoreState :=
  match raw with
  | none => s
  | some saved =>
    let s1 := match saved.base with
      | some b => { s with base := b }
      | none => s
    let s2 := match saved.overlays with
      | some o => { s1 with overlays := o }
      | none => s1
    let s3 := match saved.groups with
      | some g => { s2 with groups := g }
      | none => s2
    match saved.layerOrder with
    | some l => { s3 with layerOrder := l }
    | none => s3

/-- StateService persist: JSON.stringify of the whole live state, every
field written verbatim. -/
def persist (s : StoreState) : Persisted :=
  { base := some s.base, overlays := some s.overlays
  , groups := some s.groups, layerOrder := some s.layerOrder }

/-- Normalised zoom constraint pair returned by getFilterConfig. -/
structure FilterCfg where
  minZoom : Option ℚ
  maxZoom : Option ℚ
deriving Repr, DecidableEq

/-- UIManager getFilterConfig: the filter spelling wins over the legacy
minZoomLevel / maxZoomLevel spelling, field by field. -/
def getFilterConfig (o : Overlay) : FilterCfg :=
  { minZoom := match o.filterMinZoom with
      | some m => some m
      | none => o.minZoomLevel
  , maxZoom := match o.filterMaxZoom with
      | some m => some m
      | none => o.maxZoomLevel }

/-- True when the bound is present and the zoom is strictly below it. -/
def belowMin (zoom : ℚ) : Option ℚ → Bool
  | some m => decide (zoom < m)
  | none => false

/-- True when the bound is present and the zoom is at or above it. -/
def atOrAboveMax (zoom : ℚ) : Option ℚ → Bool
  | some m => decide (m ≤ zoom)
  | none => false

/-- UIManager checkZoomConstraints: the overlay may render exactly when
the current zoom is neither strictly below the min bound nor at or above
the max bound (min inclusive, max exclusive). -/
def checkZoomConstraints (o : Overlay) (zoom : ℚ) : Bool :=
  let f := getFilterConfig o
  if belowMin zoom f.minZoom then false
  else if atOrAboveMax zoom f.maxZoom then false
  else true

/-- UIManager updateZoomFiltering (the activation-time variant): compute
the predicate for one overlay and synchronise the zoomFiltered set,
returning the shouldBeVisible flag. An id missing from the configuration
returns true without touching the set. -/
def updateZoomFiltering (cfg : Config) (ui : UIState) (zoom : ℚ) (overlayId : String) :
    Bool × UIState :=
  match cfg.overlays.find? (fun o => o.id = overlayId) with
  | none => (true, ui)
  | some o =>
    let should := checkZoomConstraints o zoom
    if should then
      (true, { ui with zoomFiltered := ui.zoomFiltered.filter (fun x => x ≠ overlayId) })
    else
      (false, { ui with zoomFiltered :=
        if overlayId ∈ ui.zoomFiltered then ui.zoomFiltered
        else ui.zoomFiltered ++ [overlayId] })

/-- UIManager createDeckLayer: a live layer instance tagged with the
overlay's opacity, or none when construction fails. -/
def createDeckLayer (lc : LayerSpec) (opacity : ℚ) : Option DeckLayer :=
  if lc.ok then some { id := lc.id, opacity := opacity } else none

/-- The forEach accumulation inside createAndStoreDeckLayers: build each
configured layer, store the successes in the deckLayers map and collect
their ids in order. -/
def buildLayers (opacity : ℚ) : List LayerSpec → AList DeckLayer → List String →
    AList DeckLayer × List String
  | [], m, ids => (m, ids)
  | lc :: rest, m, ids =>
    match createDeckLayer lc opacity with
    | some l => buildLayers opacity rest (alSet m lc.id l) (ids ++ [lc.id])
    | none => buildLayers opacity rest m ids

/-- UIManager setLoadingState (the map part; the DOM spinner is external). -/
def setLoading (ui : UIState) (id : String) (b : Bool) : UIState :=
  { ui with loadingStates := alSet ui.loadingStates id b }

/-- UIManager createAndStoreDeckLayers: delete the ids previously owned by
this overlay from the deckLayers map, rebuild the configured layers at the
overlay's stored opacity, and replace the overlay's entry in
overlayToLayerIds with the new id list. -/
def createAndStoreDeckLayers (store : StoreState) (ui : UIState) (overlayId : String)
    (specs : List LayerSpec) : UIState :=
  let existing := (alGet ui.overlayToLayerIds overlayId).getD []
  let dl1 := alDelAll existing ui.deckLayers
  let opacity := match alGet store.overlays overlayId with
    | some s => s.opacity
    | none => 1
  let r := buildLayers opacity specs dl1 []
  { ui with deckLayers := r.1
          , overlayToLayerIds := alSet ui.overlayToLayerIds overlayId r.2 }

/-- UIManager internal deactivateOverlay: delete the owned layer ids from
the deckLayers map and the ownership entry itself, clear the
zoom-filtered flag and the loading flag. -/
def deactivateOverlay (ui : UIState) (overlayId : String) : UIState :=
  let ui1 := match alGet ui.overlayToLayerIds overlayId with
    | some lids =>
      { ui with deckLayers := alDelAll lids ui.deckLayers
              , overlayToLayerIds := alDel ui.overlayToLayerIds overlayId }
    | none => ui
  let ui2 := { ui1 with zoomFiltered := ui1.zoomFiltered.filter (fun x => x ≠ overlayId) }
  setLoading ui2 overlayId false

/-- UIManager showOverlayLayers (zoom-filter unhide): rebuild the
configured layers into the deckLayers map. The ownership mapping is not
touched. -/
def showOverlayLayers (store : StoreState) (ui : UIState) (o : Overlay) : UIState :=
  match o.deckLayers with
  | none => ui
  | some specs =>
    let opacity := match alGet store.overlays o.id with
      | some s => s.opacity
      | none => 1
    { ui with deckLayers :=
        specs.foldl (fun m lc =>
          match createDeckLayer lc opacity with
          | some l => alSet m lc.id l
          | none => m) ui.deckLayers }

/-- UIManager hideOverlayLayers (zoom-filter hide): delete the configured
layer ids from the deckLayers map. The ownership mapping is not
touched. -/
def hideOverlayLayers (ui : UIState) (o : Overlay) : UIState :=
  match o.deckLayers with
  | none => ui
  | some specs =>
    { ui with deckLayers := specs.foldl (fun m lc => alDel m lc.id) ui.deckLayers }

/-- The per-layer clone loop of UIManager updateOverlayOpacity: replace
each owned live layer with an opacity-updated clone. -/
def cloneOpacity (opacity : ℚ) : List String → AList DeckLayer → AList DeckLayer
  | [], m => m
  | lid :: rest, m =>
    match alGet m lid with
    | some l => cloneOpacity opacity rest (alSet m lid { l with opacity := opacity })
    | none => cloneOpacity opacity rest m

/-- UIManager internal updateOverlayOpacity: no-op when the overlay owns
no layers, otherwise clone every owned layer at the new opacity. -/
def updateOverlayOpacityUI (ui : UIState) (overlayId : String) (opacity : ℚ) : UIState :=
  match alGet ui.overlayToLayerIds overlayId with
  | none => ui
  | some lids => { ui with deckLayers := cloneOpacity opacity lids ui.deckLayers }

/-- One step of updateAllZoomFiltering for one overlay id: skipped unless
the overlay has visible runtime state and a configuration entry; a
filtered-to-visible transition rebuilds its layers and a
visible-to-filtered transition removes them, each emitting a zoomfilter
event; no-op when the predicate did not flip. -/
def zoomFilterStep (cfg : Config) (store : StoreState) (zoom : ℚ)
    (acc : UIState × List Ev) (overlayId : String) : UIState × List Ev :=
  match alGet store.overlays overlayId with
  | none => acc
  | some s =>
    if !s.visible then acc
    else
      match cfg.overlays.find? (fun o => o.id = overlayId) with
      | none => acc
      | some o =>
        let should := checkZoomConstraints o zoom
        let isFiltered := overlayId ∈ acc.1.zoomFiltered
        if should && isFiltered then
          let ui1 := { acc.1 with zoomFiltered :=
            acc.1.zoomFiltered.filter (fun x => x ≠ overlayId) }
          (showOverlayLayers store ui1 o, acc.2 ++ [Ev.zoomfilter overlayId false])
        else if !should && !isFiltered then
          let ui1 := { acc.1 with zoomFiltered := acc.1.zoomFiltered ++ [overlayId] }
          (hideOverlayLayers ui1 o, acc.2 ++ [Ev.zoomfilter overlayId true])
        else acc

/-- UIManager updateAllZoomFiltering: run the zoom predicate over every
overlay id holding runtime state, in insertion order. -/
def updateAllZoomFiltering (cfg : Config) (st : St) (zoom : ℚ) : UIState × List Ev :=
  (st.store.overlays.map (fun p => p.1)).foldl
    (zoomFilterStep cfg st.store zoom) (st.ui, [])

/-- Synchronous part of UIManager applyBaseStyle: when the base id has a
style descriptor, the deck overlay is torn down and both registry maps are
cleared; the map style swap and the styledata continuation are external
and asynchronous. -/
def applyBaseStyleSync (cfg : Config) (ui : UIState) (baseId : String) : UIState :=
  match cfg.baseStyles.find? (fun b => b.id = baseId) with
  | none => ui
  | some bs =>
    if bs.style then { ui with deckLayers := [], overlayToLayerIds := [] }
    else ui

/-- BusinessLogicService.setBaseLayer: false on an unknown base id with no
state change; otherwise persist through StateService.setBase (which emits
basechange and change when the id changed) and run the synchronous part of
applyBaseStyle. -/
def blsSetBaseLayer (cfg : Config) (st : St) (baseId : String) : St × List Ev × Bool :=
  match cfg.baseStyles.find? (fun b => b.id = baseId) with
  | none => (st, [], false)
  | some _ =>
    let pr := storeSetBase st.store baseId
    let ui1 := applyBaseStyleSync cfg st.ui baseId
    (⟨ui1, pr.1⟩, pr.2, true)

/-- The tail of UIManager activateOverlay after the loader has settled
successfully (or when there is no loader): re-read the overlay from the
configuration, materialise its deckLayers when present, clear the loading
flag and any stale error state. The overlay's runtime visible flag is not
consulted here. -/
def activateAfterLoader (cfg : Config) (store : StoreState) (ui : UIState)
    (overlayId : String) : UIState :=
  let ui1 := match cfg.overlays.find? (fun o => o.id = overlayId) with
    | some o =>
      match o.deckLayers with
      | some specs => createAndStoreDeckLayers store ui overlayId specs
      | none => ui
    | none => ui
  let ui2 := setLoading ui1 overlayId false
  { ui2 with errorStates := alDel ui2.errorStates overlayId }

/-- The body of UIManager activateOverlay from the zoom-constraint check
onward (the forced-base early return is handled by the caller): the
zoomfilter early return, the loader invocation with its loading, success
and error signals, the materialisation tail, and the catch-all that turns
a loader rejection into error state plus a second error event. -/
def activateMain (cfg : Config) (zoom : ℚ) (st : St) (overlayId : String)
    (o : Overlay) : St × List Ev :=
  let pz := updateZoomFiltering cfg st.ui zoom overlayId
  if !pz.1 then
    ({ st with ui := setLoading pz.2 overlayId false }, [Ev.zoomfilter overlayId true])
  else
    match o.onChecked with
    | none =>
      ({ st with ui := activateAfterLoader cfg st.store pz.2 overlayId }, [])
    | some LoaderOutcome.resolve =>
      ({ st with ui := activateAfterLoader cfg st.store pz.2 overlayId }
      , [Ev.loading overlayId, Ev.success overlayId])
    | some (LoaderOutcome.reject msg) =>
      let ui2 := setLoading pz.2 overlayId false
      let ui3 := { ui2 with errorStates := alSet ui2.errorStates overlayId msg }
      ({ st with ui := ui3 }
      , [Ev.loading overlayId, Ev.error overlayId msg, Ev.error overlayId msg])

/-- UIManager activateOverlay: no-op on an unknown overlay id; sets the
loading flag; on a user interaction whose overlay forces a different base
style, delegates to setBaseLayer and returns early (the styledata
continuation re-activates visible overlays later); otherwise runs
activateMain. Loader rejections are caught inside and never propagate:
the function is total. -/
def activateOverlay (cfg : Config) (zoom : ℚ) (st : St) (overlayId : String)
    (isUser : Bool) : St × List Ev :=
  match cfg.overlays.find? (fun o => o.id = overlayId) with
  | none => (st, [])
  | some o =>
    let st1 : St := { st with ui := setLoading st.ui overlayId true }
    if isUser && o.forcedBaseLayerId.isSome
        && decide (st1.store.base ≠ o.forcedBaseLayerId) then
      match o.forcedBaseLayerId with
      | some forcedId =>
        let pr := blsSetBaseLayer cfg st1 forcedId
        ({ pr.1 with ui := setLoading pr.1.ui overlayId false }, pr.2.1)
      | none => activateMain cfg zoom st1 overlayId o
    else
      activateMain cfg zoom st1 overlayId o

/-- Visibility test used all over BusinessLogicService: the entry exists
and its visible flag is set. -/
def ovVisible (s : StoreState) (id : String) : Bool :=
  match alGet s.overlays id with
  | some st => st.visible
  | none => false

/-- The run part of BusinessLogicService.showOverlay once the
already-visible guard has passed: set the flag, activate (the fireCallback
argument doubles as isUserInteraction), then emit overlaychange and change
when fireCallback is set. -/
def blsShowOverlayRun (cfg : Config) (zoom : ℚ) (st : St) (id : String)
    (fireCb : Bool) : St × List Ev × Bool :=
  let st1 : St := { st with store := storeSetOverlayVisibility st.store id true }
  let pr := activateOverlay cfg zoom st1 id fireCb
  if fireCb then
    let op := match alGet pr.1.store.overlays id with
      | some s => s.opacity
      | none => 1
    (pr.1, pr.2 ++ [Ev.overlaychange id true op, Ev.change "overlaychange"], true)
  else
    (pr.1, pr.2, true)

/-- BusinessLogicService.showOverlay: immediately true when the overlay is
already visible, otherwise run the activation path. -/
def blsShowOverlay (cfg : Config) (zoom : ℚ) (st : St) (id : String)
    (fireCb : Bool) : St × List Ev × Bool :=
  if ovVisible st.store id then (st, [], true)
  else blsShowOverlayRun cfg zoom st id fireCb

/-- BusinessLogicService.hideOverlay: immediately true when the overlay is
absent or already hidden, otherwise clear the flag, deactivate, and emit
overlaychange plus change when fireCallback is set. -/
def blsHideOverlay (st : St) (id : String) (fireCb : Bool) : St × List Ev × Bool :=
  if !ovVisible st.store id then (st, [], true)
  else
    let store1 := storeSetOverlayVisibility st.store id false
    let ui1 := deactivateOverlay st.ui id
    let st1 : St := ⟨ui1, store1⟩
    if fireCb then
      let op := match alGet store1.overlays id with
        | some s => s.opacity
        | none => 1
      (st1, [Ev.overlaychange id false op, Ev.change "overlaychange"], true)
    else
      (st1, [], true)

/-- BusinessLogicService.setOverlayOpacity: clamp, persist (the store
clamps again), update owned live layers only when the overlay is visible,
and emit overlaychange plus change unconditionally. -/
def blsSetOverlayOpacity (st : St) (id : String) (value : ℚ) : St × List Ev × Bool :=
  let clamped := clamp01 value
  let store1 := storeSetOverlayOpacity st.store id clamped
  let visible := ovVisible store1 id
  let ui1 := if visible then updateOverlayOpacityUI st.ui id clamped else st.ui
  (⟨ui1, store1⟩
  , [Ev.overlaychange id visible clamped, Ev.change "overlaychange"], true)

/-- BusinessLogicService.removeOverlay: deactivate, clear loading and
error indicators, drop the runtime entry, and emit a single overlaychange
when fireCallback is set. -/
def blsRemoveOverlay (st : St) (id : String) (fireCb : Bool) : St × List Ev × Bool :=
  let ui1 := deactivateOverlay st.ui id
  let ui2 := setLoading ui1 id false
  let ui3 := { ui2 with errorStates := alDel ui2.errorStates id }
  let store1 := storeRemoveOverlay st.store id
  let evs := if fireCb then [Ev.overlaychange id false 1] else []
  (⟨ui3, store1⟩, evs, true)

/-- The member list of a group, as computed in BusinessLogicService:
options.overlays filtered by the group field. -/
def groupMembers (cfg : Config) (gid : String) : List Overlay :=
  cfg.overlays.filter (fun o => o.group = some gid)

/-- One member step of the turning-on branch of setGroupVisibility: force
the member visible when no member was individually visible, then activate
it exactly when its (possibly just-updated) flag is set. -/
def groupOnStep (cfg : Config) (zoom : ℚ) (anyVis : Bool) (acc : St × List Ev)
    (o : Overlay) : St × List Ev :=
  let st1 := if !anyVis
    then { acc.1 with store := storeSetOverlayVisibility acc.1.store o.id true }
    else acc.1
  if ovVisible st1.store o.id then
    let pr := activateOverlay cfg zoom st1 o.id false
    (pr.1, acc.2 ++ pr.2)
  else (st1, acc.2)

/-- One member step of the turning-off branch of setGroupVisibility: clear
the member's flag and deactivate it unconditionally. -/
def groupOffStep (acc : St × List Ev) (o : Overlay) : St × List Ev :=
  let store1 := storeSetOverlayVisibility acc.1.store o.id false
  let ui1 := deactivateOverlay acc.1.ui o.id
  ((⟨ui1, store1⟩ : St), acc.2)

/-- BusinessLogicService.setGroupVisibility: persist the group flag, then
walk the members. Turning on with no individually-visible member forces
every member visible and activates it; with at least one visible member
only the already-visible ones are activated. Turning off clears and
deactivates every member. A single overlaygroupchange plus change is
emitted at the end. -/
def blsSetGroupVisibility (cfg : Config) (zoom : ℚ) (st : St) (gid : String)
    (visible : Bool) : St × List Ev × Bool :=
  let store0g := storeSetGroupVisibility st.store gid visible
  let stg : St := ⟨st.ui, store0g⟩
  let members := groupMembers cfg gid
  let pr :=
    if visible then
      let anyVis := members.any (fun o => ovVisible store0g o.id)
      members.foldl (groupOnStep cfg zoom anyVis) (stg, [])
    else
      members.foldl groupOffStep (stg, [])
  (pr.1, pr.2 ++ [Ev.overlaygroupchange gid visible, Ev.change "overlaygroupchange"], true)

/-- BusinessLogicService.setGroupOpacity: clamp once, persist the group
opacity, then push the clamped value into every member, updating live
layers of the visible ones. -/
def blsSetGroupOpacity (cfg : Config) (st : St) (gid : String) (value : ℚ) :
    St × List Ev × Bool :=
  let clamped := clamp01 value
  let store1 := storeSetGroupOpacity st.store gid clamped
  let members := groupMembers cfg gid
  let stF := members.foldl (fun (acc : St) o =>
      let store2 := storeSetOverlayOpacity acc.store o.id clamped
      let ui2 := if ovVisible store2 o.id
        then updateOverlayOpacityUI acc.ui o.id clamped
        else acc.ui
      (⟨ui2, store2⟩ : St)) ⟨st.ui, store1⟩
  (stF, [], true)

/-- LayersControl.showOverlay: false with no effect on an unknown overlay
id, otherwise delegate to the business logic and return true. -/
def lcShowOverlay (cfg : Config) (zoom : ℚ) (st : St) (id : String)
    (fireCb : Bool) : St × List Ev × Bool :=
  match cfg.overlays.find? (fun o => o.id = id) with
  | none => (st, [], false)
  | some _ =>
    let pr := blsShowOverlay cfg zoom st id fireCb
    (pr.1, pr.2.1, true)

/-- LayersControl.hideOverlay: false with no effect on an unknown overlay
id, otherwise delegate and return true. -/
def lcHideOverlay (cfg : Config) (st : St) (id : String) (fireCb : Bool) :
    St × List Ev × Bool :=
  match cfg.overlays.find? (fun o => o.id = id) with
  | none => (st, [], false)
  | some _ =>
    let pr := blsHideOverlay st id fireCb
    (pr.1, pr.2.1, true)

/-- LayersControl.setOverlayOpacity: false with no effect on an unknown
overlay id, otherwise delegate and return true. -/
def lcSetOverlayOpacity (cfg : Config) (st : St) (id : String) (value : ℚ) :
    St × List Ev × Bool :=
  match cfg.overlays.find? (fun o => o.id = id) with
  | none => (st, [], false)
  | some _ =>
    let pr := blsSetOverlayOpacity st id value
    (pr.1, pr.2.1, true)

/-- LayersControl.setBaseLayer: false with no effect on an unknown base
id, otherwise delegate and return true. -/
def lcSetBaseLayer (cfg : Config) (st : St) (id : String) : St × List Ev × Bool :=
  match cfg.baseStyles.find? (fun b => b.id = id) with
  | none => (st, [], false)
  | some _ =>
    let pr := blsSetBaseLayer cfg st id
    (pr.1, pr.2.1, true)

/-- LayersControl.showGroup: false with no effect when no overlay belongs
to the group, otherwise turn the group on. -/
def lcShowGroup (cfg : Config) (zoom : ℚ) (st : St) (id : String) :
    St × List Ev × Bool :=
  if cfg.overlays.any (fun o => o.group = some id) then
    let pr := blsSetGroupVisibility cfg zoom st id true
    (pr.1, pr.2.1, true)
  else (st, [], false)

/-- LayersControl.hideGroup: false with no effect when no overlay belongs
to the group, otherwise turn the group off. -/
def lcHideGroup (cfg : Config) (zoom : ℚ) (st : St) (id : String) :
    St × List Ev × Bool :=
  if cfg.overlays.any (fun o => o.group = some id) then
    let pr := blsSetGroupVisibility cfg zoom st id false
    (pr.1, pr.2.1, true)
  else (st, [], false)

/-- LayersControl.setGroupOpacity: false with no effect when no overlay
belongs to the group, otherwise delegate. -/
def lcSetGroupOpacity (cfg : Config) (st : St) (id : String) (value : ℚ) :
    St × List Ev × Bool :=
  if cfg.overlays.any (fun o => o.group = some id) then
    let pr := blsSetGroupOpacity cfg st id value
    (pr.1, pr.2.1, true)
  else (st, [], false)

/-- LayersControl.removeOverlay: false with no effect on an unknown id,
otherwise delegate to the business logic and splice the configuration
entry. -/
def lcRemoveOverlay (cfg : Config) (st : St) (id : String) (fireCb : Bool) :
    Config × St × List Ev × Bool :=
  match cfg.overlays.findIdx? (fun o => o.id = id) with
  | none => (cfg, st, [], false)
  | some _ =>
    let pr := blsRemoveOverlay st id fireCb
    let cfg2 := { cfg with overlays := cfg.overlays.eraseP (fun o => o.id = id) }
    (cfg2, pr.1, pr.2.1, true)

/-- LayersControl.removeBaseStyle: false with no effect on an empty or
unknown id; otherwise splice the entry and, when it was the active base,
switch to the configured default or the first remaining style. -/
def lcRemoveBaseStyle (cfg : Config) (st : St) (id : String) :
    Config × St × List Ev × Bool :=
  if id = "" then (cfg, st, [], false)
  else
    match cfg.baseStyles.findIdx? (fun b => b.id = id) with
    | none => (cfg, st, [], false)
    | some _ =>
      let wasActive := st.store.base = some id
      let cfg2 := { cfg with baseStyles := cfg.baseStyles.eraseP (fun b => b.id = id) }
      if wasActive && cfg2.baseStyles.length > 0 then
        let fallback := match cfg2.baseStyles.find?
            (fun b => some b.id = cfg2.defaultBaseId) with
          | some fb => some fb
          | none => cfg2.baseStyles.head?
        match fallback with
        | some fb =>
          let pr := blsSetBaseLayer cfg2 st fb.id
          (cfg2, pr.1, pr.2.1, true)
        | none => (cfg2, st, [], true)
      else (cfg2, st, [], true)

/-- The registry invariant claimed in the data model: every layer id
appearing in any overlayToLayerIds value has a live deckLayers entry. -/
def registryInv (ui : UIState) : Prop :=
  ∀ oid lids, alGet ui.overlayToLayerIds oid = some lids →
    ∀ l ∈ lids, (alGet ui.deckLayers l).isSome

/-- Ids of the layers an overlay's configuration builds successfully; this
is the list createAndStoreDeckLayers records as owned. -/
def okLayerIds (specs : List LayerSpec) : List String :=
  (specs.filter (fun lc => lc.ok)).map (fun lc => lc.id)

theorem numOr0_eq (v : ℚ) : numOr0 v = v := by
  unfold numOr0
  split_ifs with h
  · exact h.symm
  · rfl

theorem clamp01_nonneg (v : ℚ) : 0 ≤ clamp01 v := le_max_left _ _

theorem clamp01_le_one (v : ℚ) : clamp01 v ≤ 1 :=
  max_le (by norm_num) (min_le_left _ _)

theorem clamp01_of_bounds (x : ℚ) (h0 : 0 ≤ x) (h1 : x ≤ 1) : clamp01 x = x := by
  unfold clamp01
  rw [numOr0_eq, min_eq_right h1, max_eq_right h0]

theorem clamp01_idem (v : ℚ) : clamp01 (clamp01 v) = clamp01 v :=
  clamp01_of_bounds _ (clamp01_nonneg v) (clamp01_le_one v)

theorem clamp01_three_halves : clamp01 (3 / 2) = 1 := by
  unfold clamp01
  rw [numOr0_eq]
  rw [min_eq_left (by norm_num), max_eq_right (by norm_num)]

theorem clamp01_neg_fifth : clamp01 (-(1 / 5)) = 0 := by
  unfold clamp01
  rw [numOr0_eq]
  rw [min_eq_right (by norm_num), max_eq_left (by norm_num)]

theorem storeSetOverlayVisibility_self (s : StoreState) (id : String) (v : Bool) :
    alGet (storeSetOverlayVisibility s id v).overlays id
      = some { (alGet s.overlays id).getD { visible := false, opacity := 1 } with
                 visible := v } := by
  unfold storeSetOverlayVisibility
  exact alGet_alSet_self _ _ _

theorem storeSetOverlayVisibility_other (s : StoreState) (id : String) (v : Bool)
    (id' : String) (h : id' ≠ id) :
    alGet (storeSetOverlayVisibility s id v).overlays id' = alGet s.overlays id' := by
  unfold storeSetOverlayVisibility
  exact alGet_alSet_ne _ _ _ _ h

theorem ovVisible_setVisibility_self (s : StoreState) (id : String) (v : Bool) :
    ovVisible (storeSetOverlayVisibility s id v) id = v := by
  unfold ovVisible
  rw [storeSetOverlayVisibility_self]

/-- C8: for every overlay id and numeric value, setOverlayOpacity stores
exactly the value clamped to the unit interval; the stored opacity is
always within bounds, and the concrete inputs 1.5 and -0.2 store 1 and 0
respectively. -/
theorem setOpacity_clamps (st : St) (id : String) (v : ℚ) :
    ((alGet (blsSetOverlayOpacity st id v).1.store.overlays id).map
        (fun s => s.opacity) = some (clamp01 v))
    ∧ 0 ≤ clamp01 v ∧ clamp01 v ≤ 1
    ∧ clamp01 (3 / 2) = 1 ∧ clamp01 (-(1 / 5)) = 0
    ∧ ((alGet (blsSetOverlayOpacity st id (3 / 2)).1.store.overlays id).map
        (fun s => s.opacity) = some 1)
    ∧ ((alGet (blsSetOverlayOpacity st id (-(1 / 5))).1.store.overlays id).map
        (fun s => s.opacity) = some 0) := by
  have hlook : ∀ w : ℚ,
      (alGet (blsSetOverlayOpacity st id w).1.store.overlays id).map
        (fun s => s.opacity) = some (clamp01 w) := by
    intro w
    show (alGet (storeSetOverlayOpacity st.store id (clamp01 w)).overlays id).map
        (fun s => s.opacity) = some (clamp01 w)
    unfold storeSetOverlayOpacity
    rw [alGet_alSet_self]
    simp [clamp01_idem]
  refine ⟨hlook v, clamp01_nonneg v, clamp01_le_one v,
    clamp01_three_halves, clamp01_neg_fifth, ?_, ?_⟩
  · rw [hlook (3 / 2), clamp01_three_halves]
  · rw [hlook (-(1 / 5)), clamp01_neg_fifth]

/-- C9: every public LayersControl operation given an id that is absent
from the current configuration returns false, emits no event, and leaves
both the configuration and the engine state untouched; no exception is
modelled because each embedded function is total. -/
theorem unknown_id_returns_false (cfg : Config) (zoom : ℚ) (st : St) (id : String)
    (v : ℚ) (fireCb : Bool) :
    (cfg.overlays.find? (fun o => o.id = id) = none →
        lcShowOverlay cfg zoom st id fireCb = (st, [], false)
      ∧ lcHideOverlay cfg st id fireCb = (st, [], false)
      ∧ lcSetOverlayOpacity cfg st id v = (st, [], false))
    ∧ (cfg.baseStyles.find? (fun b => b.id = id) = none →
        lcSetBaseLayer cfg st id = (st, [], false))
    ∧ (cfg.overlays.any (fun o => o.group = some id) = false →
        lcShowGroup cfg zoom st id = (st, [], false)
      ∧ lcHideGroup cfg zoom st id = (st, [], false)
      ∧ lcSetGroupOpacity cfg st id v = (st, [], false))
    ∧ (cfg.overlays.findIdx? (fun o => o.id = id) = none →
        lcRemoveOverlay cfg st id fireCb = (cfg, st, [], false))
    ∧ (cfg.baseStyles.findIdx? (fun b => b.id = id) = none →
        lcRemoveBaseStyle cfg st id = (cfg, st, [], false)) := by
  refine ⟨fun h => ⟨?_, ?_, ?_⟩, fun h => ?_, fun h => ⟨?_, ?_, ?_⟩,
    fun h => ?_, fun h => ?_⟩
  · simp [lcShowOverlay, h]
  · simp [lcHideOverlay, h]
  · simp [lcSetOverlayOpacity, h]
  · simp [lcSetBaseLayer, h]
  · simp [lcShowGroup, h]
  · simp [lcHideGroup, h]
  · simp [lcSetGroupOpacity, h]
  · simp [lcRemoveOverlay, h]
  · by_cases hid : id = "" <;> simp [lcRemoveBaseStyle, h, hid]

/-- Empty configuration used by several concrete witnesses. -/
def cfg0 : Config := { overlays := [], baseStyles := [] }

/-- Empty combined state used by several concrete witnesses. -/
def st0 : St := ⟨ui0, store0⟩

/-- Witness for the unknown-id theorem at the empty configuration and the
id ghost. -/
theorem unknown_id_returns_false_witness :
    lcShowOverlay cfg0 0 st0 "ghost" false = (st0, [], false)
    ∧ lcRemoveBaseStyle cfg0 st0 "ghost" = (cfg0, st0, [], false) :=
  ⟨((unknown_id_returns_false cfg0 0 st0 "ghost" 0 false).1 rfl).1,
   (unknown_id_returns_false cfg0 0 st0 "ghost" 0 false).2.2.2.2 rfl⟩

/-- C10: showOverlay on an already-visible overlay and hideOverlay on an
absent or hidden overlay both return true immediately, with no state
mutation and no emitted event, regardless of the fireCallback flag. -/
theorem redundant_visibility_noop (cfg : Config) (zoom : ℚ) (st : St) (id : String)
    (fireCb : Bool) :
    (ovVisible st.store id = true →
        blsShowOverlay cfg zoom st id fireCb = (st, [], true))
    ∧ (ovVisible st.store id = false →
        blsHideOverlay st id fireCb = (st, [], true)) := by
  constructor
  · intro h
    simp [blsShowOverlay, h]
  · intro h
    simp [blsHideOverlay, h]

/-- Concrete state with the overlay a visible, for witnesses. -/
def stVisA : St := ⟨ui0, storeSetOverlayVisibility store0 "a" true⟩

/-- Witness for the redundant-visibility theorem: a redundant show on a
visible overlay and a redundant hide on an absent one are no-ops. -/
theorem redundant_visibility_noop_witness :
    blsShowOverlay cfg0 0 stVisA "a" true = (stVisA, [], true)
    ∧ blsHideOverlay st0 "b" true = (st0, [], true) :=
  ⟨(redundant_visibility_noop cfg0 0 stVisA "a" true).1 (by decide),
   (redundant_visibility_noop cfg0 0 st0 "b" true).2 (by decide)⟩

theorem showOverlayLayers_zoomFiltered (store : StoreState) (ui : UIState) (o : Overlay) :
    (showOverlayLayers store ui o).zoomFiltered = ui.zoomFiltered := by
  unfold showOverlayLayers
  cases o.deckLayers <;> rfl

theorem hideOverlayLayers_zoomFiltered (ui : UIState) (o : Overlay) :
    (hideOverlayLayers ui o).zoomFiltered = ui.zoomFiltered := by
  unfold hideOverlayLayers
  cases o.deckLayers <;> rfl

/-- The overlay used by the concrete zoom-boundary checks: min zoom 5,
max zoom 10 via the filter spelling. -/
def zr510 : Overlay := { id := "z", filterMinZoom := some 5, filterMaxZoom := some 10 }

/-- C6: with both bounds configured, an overlay is filtered out exactly
when zoom is strictly below min or at or above max (min inclusive, max
exclusive); the concrete boundary cases for min 5 and max 10 behave as
claimed; and both the activation-time check (updateZoomFiltering) and the
move-end re-evaluation step (zoomFilterStep) are driven by this same
checkZoomConstraints predicate: the first returns it verbatim, the second
leaves the overlay marked zoom-filtered exactly when it is false. -/
theorem zoom_boundary
    : (∀ (o : Overlay) (mn mx zoom : ℚ),
        (getFilterConfig o).minZoom = some mn →
        (getFilterConfig o).maxZoom = some mx →
        (checkZoomConstraints o zoom = false ↔ (zoom < mn ∨ mx ≤ zoom)))
    ∧ checkZoomConstraints zr510 5 = true
    ∧ checkZoomConstraints zr510 (9999 / 1000) = true
    ∧ checkZoomConstraints zr510 10 = false
    ∧ checkZoomConstraints zr510 (4999 / 1000) = false
    ∧ (∀ (cfg : Config) (ui : UIState) (zoom : ℚ) (oid : String) (o : Overlay),
        cfg.overlays.find? (fun x => x.id = oid) = some o →
        (updateZoomFiltering cfg ui zoom oid).1 = checkZoomConstraints o zoom)
    ∧ (∀ (cfg : Config) (store : StoreState) (zoom : ℚ) (ui : UIState)
        (evs : List Ev) (oid : String) (s : OvState) (o : Overlay),
        alGet store.overlays oid = some s → s.visible = true →
        cfg.overlays.find? (fun x => x.id = oid) = some o →
        ((oid ∈ (zoomFilterStep cfg store zoom (ui, evs) oid).1.zoomFiltered)
          ↔ checkZoomConstraints o zoom = false)) := by
  have hiff : ∀ (o : Overlay) (mn mx zoom : ℚ),
      (getFilterConfig o).minZoom = some mn →
      (getFilterConfig o).maxZoom = some mx →
      (checkZoomConstraints o zoom = false ↔ (zoom < mn ∨ mx ≤ zoom)) := by
    intro o mn mx zoom h1 h2
    simp only [checkZoomConstraints, h1, h2, belowMin, atOrAboveMax]
    by_cases hlt : zoom < mn
    · simp [hlt]
    · by_cases hge : mx ≤ zoom
      · simp [hlt, hge]
      · simp [hlt, hge]
  have h510 : (getFilterConfig zr510).minZoom = some 5
      ∧ (getFilterConfig zr510).maxZoom = some 10 := ⟨rfl, rfl⟩
  have hbool : ∀ zoom : ℚ, checkZoomConstraints zr510 zoom = true ↔
      ¬ (zoom < 5 ∨ (10 : ℚ) ≤ zoom) := by
    intro zoom
    have := hiff zr510 5 10 zoom h510.1 h510.2
    constructor
    · intro ht hor
      rw [this.mpr hor] at ht
      exact Bool.false_ne_true ht
    · intro hn
      cases hc : checkZoomConstraints zr510 zoom
      · exact absurd (this.mp hc) hn
      · rfl
  refine ⟨hiff, ?_, ?_, ?_, ?_, ?_, ?_⟩
  · exact (hbool 5).mpr (by norm_num)
  · exact (hbool (9999 / 1000)).mpr (by norm_num)
  · exact (hiff zr510 5 10 10 h510.1 h510.2).mpr (by norm_num)
  · exact (hiff zr510 5 10 (4999 / 1000) h510.1 h510.2).mpr (by norm_num)
  · intro cfg ui zoom oid o hfind
    by_cases hs : checkZoomConstraints o zoom <;>
      simp [updateZoomFiltering, hfind, hs]
  · intro cfg store zoom ui evs oid s o hget hvis hfind
    by_cases hs : checkZoomConstraints o zoom <;>
      by_cases hf : oid ∈ ui.zoomFiltered <;>
        simp [zoomFilterStep, hget, hfind, hvis, hs, hf,
          showOverlayLayers_zoomFiltered, hideOverlayLayers_zoomFiltered,
          List.mem_filter]

/-- Witness for the zoom-boundary theorem, applying its hypothesis-bearing
components at concrete inputs. -/
theorem zoom_boundary_witness :
    (checkZoomConstraints zr510 10 = false ↔ ((10 : ℚ) < 5 ∨ (10 : ℚ) ≤ 10))
    ∧ (updateZoomFiltering { overlays := [zr510], baseStyles := [] } ui0 7 "z").1
        = checkZoomConstraints zr510 7 :=
  ⟨zoom_boundary.1 zr510 5 10 10 rfl rfl,
   zoom_boundary.2.2.2.2.2.1 { overlays := [zr510], baseStyles := [] } ui0 7 "z" zr510
     (by decide)⟩

/-- Persisted blob holding only the stale overlay id ghost. -/
def ghostBlob : Persisted :=
  { overlays := some [("ghost", { visible := true, opacity := 1 })] }

/-- Configuration in force when the ghost blob is restored: the only
overlay is real. -/
def cfgC3 : Config := { overlays := [{ id := "real" }], baseStyles := [] }

/-- Store state after the restore path runs: the StateService constructor
loads the persisted blob and onAdd then calls initOverlay for every
configured overlay. -/
def storeAfterRestore : StoreState :=
  cfgC3.overlays.foldl (fun s o => initOverlay s o.id o)
    (loadPersisted (some ghostBlob) store0)

/-- C3 evidence: restoring a blob that mentions the unknown overlay id
ghost completes (the embedded restore is total, hence error-free), but the
stale entry is copied into live state rather than ignored, and the next
persisted write still contains it, contradicting the required stale-entry
cleanup. -/
theorem stale_id_survives_persist :
    alGet storeAfterRestore.overlays "ghost" = some { visible := true, opacity := 1 }
    ∧ alGet ((persist storeAfterRestore).overlays.getD []) "ghost"
        = some { visible := true, opacity := 1 }
    ∧ alGet storeAfterRestore.overlays "real" = some { visible := false, opacity := 1 } := by
  decide

/-- Overlay x: one deck layer and an async loader that eventually
resolves. -/
def ovX : Overlay :=
  { id := "x", deckLayers := some [{ id := "xl", ok := true }]
  , onChecked := some LoaderOutcome.resolve }

/-- Configuration for the deactivate-while-loading scenario. -/
def cfgC2 : Config := { overlays := [ovX], baseStyles := [] }

/-- Engine state at the loader suspension point of showOverlay x: the
visible flag is set, activation has set the loading flag and passed the
zoom check, and the loader has been invoked but not yet settled. -/
def stPendingX : St :=
  let st1 : St := ⟨ui0, storeSetOverlayVisibility store0 "x" true⟩
  let st2 : St := { st1 with ui := setLoading st1.ui "x" true }
  { st2 with ui := (updateZoomFiltering cfgC2 st2.ui 7 "x").2 }

/-- Engine state after hideOverlay x runs while the loader is pending. -/
def stHiddenX : St := (blsHideOverlay stPendingX "x" false).1

/-- UI state after the pending loader then resolves and the activation
tail (activateAfterLoader) runs. -/
def uiResumedX : UIState := activateAfterLoader cfgC2 stHiddenX.store stHiddenX.ui "x"

/-- C2 evidence: at loader resolution the overlay's runtime visible flag
is false, yet the materialisation tail still creates and commits the
overlay's render layers, because activateAfterLoader never consults the
visible flag. -/
theorem loader_resolution_ignores_hidden_flag :
    ovVisible stHiddenX.store "x" = false
    ∧ alGet uiResumedX.overlayToLayerIds "x" = some ["xl"]
    ∧ alGet uiResumedX.deckLayers "xl" = some { id := "xl", opacity := 1 } := by
  decide

/-- Overlay a: zoom range 5 to 10 and one deck layer. -/
def ovA : Overlay :=
  { id := "a", filterMinZoom := some 5, filterMaxZoom := some 10
  , deckLayers := some [{ id := "L", ok := true }] }

/-- Configuration for the zoom-filter counterexample. -/
def cfgC1 : Config := { overlays := [ovA], baseStyles := [] }

/-- State after activating a at zoom 7: its layer L is live and owned. -/
def stActivatedA : St :=
  (activateOverlay cfgC1 7 ⟨ui0, storeSetOverlayVisibility store0 "a" true⟩ "a" false).1

/-- UI state after the camera moves to zoom 12 and the move-end
re-evaluation runs: a transitions visible-to-filtered. -/
def uiZoomedOutA : UIState := (updateAllZoomFiltering cfgC1 stActivatedA 12).1

/-- Counterexample to C1 as stated: after a zoom-filter
visible-to-filtered transition, overlay a still owns layer id L in
overlayToLayerIds while the deckLayers entry for L is gone, so the
registry invariant fails in a state reached by one activation followed by
one zoom-filter transition. -/
theorem registry_invariant_counterexample :
    alGet uiZoomedOutA.overlayToLayerIds "a" = some ["L"]
    ∧ alGet uiZoomedOutA.deckLayers "L" = none
    ∧ ¬ registryInv uiZoomedOutA := by
  refine ⟨by decide, by decide, fun h => ?_⟩
  have hL := h "a" ["L"] (by decide) "L" (by simp)
  rw [show alGet uiZoomedOutA.deckLayers "L" = none from by decide] at hL
  simp at hL

theorem updateZoomFiltering_fst (cfg : Config) (ui : UIState) (zoom : ℚ)
    (oid : String) (o : Overlay)
    (hfind : cfg.overlays.find? (fun x => x.id = oid) = some o) :
    (updateZoomFiltering cfg ui zoom oid).1 = checkZoomConstraints o zoom := by
  by_cases hs : checkZoomConstraints o zoom <;>
    simp [updateZoomFiltering, hfind, hs]

theorem updateZoomFiltering_preserves (cfg : Config) (ui : UIState) (zoom : ℚ)
    (oid : String) :
    (updateZoomFiltering cfg ui zoom oid).2.deckLayers = ui.deckLayers
    ∧ (updateZoomFiltering cfg ui zoom oid).2.overlayToLayerIds = ui.overlayToLayerIds
    ∧ (updateZoomFiltering cfg ui zoom oid).2.loadingStates = ui.loadingStates
    ∧ (updateZoomFiltering cfg ui zoom oid).2.errorStates = ui.errorStates := by
  unfold updateZoomFiltering
  cases hf : cfg.overlays.find? (fun o => o.id = oid) with
  | none => exact ⟨rfl, rfl, rfl, rfl⟩
  | some o =>
    by_cases hs : checkZoomConstraints o zoom <;> simp [hs]

theorem activateOverlay_eq_main (cfg : Config) (zoom : ℚ) (st : St) (id : String)
    (o : Overlay) (isUser : Bool)
    (hfind : cfg.overlays.find? (fun x => x.id = id) = some o)
    (hforced : o.forcedBaseLayerId = none) :
    activateOverlay cfg zoom st id isUser
      = activateMain cfg zoom { st with ui := setLoading st.ui id true } id o := by
  simp [activateOverlay, hfind, hforced]

theorem activateMain_store (cfg : Config) (zoom : ℚ) (st : St) (oid : String)
    (o : Overlay) :
    (activateMain cfg zoom st oid o).1.store = st.store := by
  unfold activateMain
  cases hq : (updateZoomFiltering cfg st.ui zoom oid).1
  · simp [hq]
  · cases hc : o.onChecked with
    | none => simp [hq, hc]
    | some out => cases out <;> simp [hq, hc]

theorem activateOverlay_store (cfg : Config) (zoom : ℚ) (st : St) (oid : String)
    (o : Overlay) (isUser : Bool)
    (hfind : cfg.overlays.find? (fun x => x.id = oid) = some o)
    (hforced : o.forcedBaseLayerId = none) :
    (activateOverlay cfg zoom st oid isUser).1.store = st.store := by
  rw [activateOverlay_eq_main cfg zoom st oid o isUser hfind hforced]
  exact activateMain_store cfg zoom _ oid o

/-- C4: when an overlay's loader rejects during activation, the event
trace is loading first and then the error signal (emitted at the inner
catch and re-emitted at the outer catch), the store is untouched so the
runtime visible flag stays true, no render layer is created or taken over,
the loading flag ends false, and the error message is recorded; the
embedding of the activation path is a total function, which is the
no-propagation guarantee. -/
theorem loader_error_contained (cfg : Config) (zoom : ℚ) (st : St) (id msg : String)
    (o : Overlay) (isUser : Bool)
    (hfind : cfg.overlays.find? (fun x => x.id = id) = some o)
    (hloader : o.onChecked = some (LoaderOutcome.reject msg))
    (hforced : o.forcedBaseLayerId = none)
    (hzoom : checkZoomConstraints o zoom = true)
    (hvis : ovVisible st.store id = true) :
    (activateOverlay cfg zoom st id isUser).2
        = [Ev.loading id, Ev.error id msg, Ev.error id msg]
    ∧ (activateOverlay cfg zoom st id isUser).1.store = st.store
    ∧ ovVisible (activateOverlay cfg zoom st id isUser).1.store id = true
    ∧ (activateOverlay cfg zoom st id isUser).1.ui.deckLayers = st.ui.deckLayers
    ∧ (activateOverlay cfg zoom st id isUser).1.ui.overlayToLayerIds
        = st.ui.overlayToLayerIds
    ∧ alGet (activateOverlay cfg zoom st id isUser).1.ui.loadingStates id = some false
    ∧ alGet (activateOverlay cfg zoom st id isUser).1.ui.errorStates id = some msg := by
  have he := activateOverlay_eq_main cfg zoom st id o isUser hfind hforced
  have hz := updateZoomFiltering_fst cfg (setLoading st.ui id true) zoom id o hfind
  rw [hzoom] at hz
  have hp := updateZoomFiltering_preserves cfg (setLoading st.ui id true) zoom id
  rw [he]
  simp only [activateMain, hz, hloader, Bool.not_true]
  refine ⟨rfl, rfl, hvis, hp.1, hp.2.1, ?_, ?_⟩
  · show alGet (alSet (updateZoomFiltering cfg (setLoading st.ui id true) zoom id).2.loadingStates
      id false) id = some false
    exact alGet_alSet_self _ _ _
  · exact alGet_alSet_self _ _ _

/-- Overlay whose loader rejects with boom. -/
def ovErr : Overlay := { id := "e", onChecked := some (LoaderOutcome.reject "boom") }

/-- Configuration for the loader-error witness. -/
def cfgErr : Config := { overlays := [ovErr], baseStyles := [] }

/-- State with overlay e visible, about to activate. -/
def stVisE : St := ⟨ui0, storeSetOverlayVisibility store0 "e" true⟩

/-- Witness for the loader-error theorem at a concrete rejecting
overlay. -/
theorem loader_error_contained_witness :
    (activateOverlay cfgErr 0 stVisE "e" true).2
      = [Ev.loading "e", Ev.error "e" "boom", Ev.error "e" "boom"]
    ∧ ovVisible (activateOverlay cfgErr 0 stVisE "e" true).1.store "e" = true := by
  have h := loader_error_contained cfgErr 0 stVisE "e" "boom" ovErr true
    (by decide) (by decide) (by decide) (by decide) (by decide)
  exact ⟨h.1, h.2.2.1⟩

theorem alSet_keys_sub {α : Type} (m : AList α) (k : String) (v : α) :
    ∀ a ∈ (alSet m k v).map Prod.fst, a = k ∨ a ∈ m.map Prod.fst := by
  induction m with
  | nil =>
    intro a ha
    simp [alSet] at ha
    exact Or.inl ha
  | cons p rest ih =>
    intro a ha
    by_cases hk : p.1 = k
    · rw [alSet, if_pos hk] at ha
      simp at ha
      rcases ha with h | h
      · exact Or.inl h
      · exact Or.inr (by simp [h])
    · rw [alSet, if_neg hk] at ha
      simp at ha
      rcases ha with h | h
      · exact Or.inr (by simp [h])
      · rcases ih a (by simpa using h) with h2 | h2
        · exact Or.inl h2
        · exact Or.inr (by simp [List.mem_map] at h2 ⊢; tauto)

theorem alSet_keys_nodup {α : Type} (m : AList α) (k : String) (v : α)
    (h : (m.map Prod.fst).Nodup) : ((alSet m k v).map Prod.fst).Nodup := by
  induction m with
  | nil => simp [alSet]
  | cons p rest ih =>
    rw [List.map_cons, List.nodup_cons] at h
    by_cases hk : p.1 = k
    · rw [alSet, if_pos hk]
      simp only [List.map_cons, List.nodup_cons]
      exact ⟨by rw [← hk]; exact h.1, h.2⟩
    · rw [alSet, if_neg hk]
      simp only [List.map_cons, List.nodup_cons]
      refine ⟨fun hmem => ?_, ih h.2⟩
      rcases alSet_keys_sub rest k v p.1 hmem with h2 | h2
      · exact hk h2
      · exact h.1 h2

theorem alDel_sublist {α : Type} (m : AList α) (k : String) :
    (alDel m k).Sublist m := by
  induction m with
  | nil => simp [alDel]
  | cons p rest ih =>
    by_cases hk : p.1 = k
    · rw [alDel, if_pos hk]
      exact ih.cons p
    · rw [alDel, if_neg hk]
      exact ih.cons₂ p

theorem alDelAll_sublist {α : Type} (ks : List String) (m : AList α) :
    (alDelAll ks m).Sublist m := by
  induction ks generalizing m with
  | nil => simp [alDelAll]
  | cons a rest ih =>
    show (alDelAll rest (alDel m a)).Sublist m
    exact (ih (alDel m a)).trans (alDel_sublist m a)

theorem buildLayers_snd (opacity : ℚ) (specs : List LayerSpec) (m : AList DeckLayer)
    (ids : List String) :
    (buildLayers opacity specs m ids).2 = ids ++ okLayerIds specs := by
  induction specs generalizing m ids with
  | nil => simp [buildLayers, okLayerIds]
  | cons lc rest ih =>
    by_cases hok : lc.ok
    · simp [buildLayers, createDeckLayer, hok, ih, okLayerIds, List.filter_cons]
    · simp [buildLayers, createDeckLayer, hok, ih, okLayerIds, List.filter_cons]

theorem buildLayers_keys_nodup (opacity : ℚ) (specs : List LayerSpec)
    (m : AList DeckLayer) (ids : List String)
    (h : (m.map Prod.fst).Nodup) :
    ((buildLayers opacity specs m ids).1.map Prod.fst).Nodup := by
  induction specs generalizing m ids with
  | nil => exact h
  | cons lc rest ih =>
    by_cases hok : lc.ok
    · rw [buildLayers, createDeckLayer, if_pos hok]
      exact ih (alSet m lc.id _) (ids ++ [lc.id]) (alSet_keys_nodup m lc.id _ h)
    · rw [buildLayers, createDeckLayer, if_neg hok]
      exact ih m ids h

theorem activateAfterLoader_o2l_self (cfg : Config) (store : StoreState) (ui : UIState)
    (oid : String) (o : Overlay) (specs : List LayerSpec)
    (hfind : cfg.overlays.find? (fun x => x.id = oid) = some o)
    (hspecs : o.deckLayers = some specs) :
    alGet (activateAfterLoader cfg store ui oid).overlayToLayerIds oid
      = some (okLayerIds specs) := by
  simp only [activateAfterLoader, hfind, hspecs, createAndStoreDeckLayers, setLoading]
  rw [alGet_alSet_self, buildLayers_snd]
  simp

theorem activateAfterLoader_o2l_other (cfg : Config) (store : StoreState) (ui : UIState)
    (oid p : String) (hp : p ≠ oid) :
    alGet (activateAfterLoader cfg store ui oid).overlayToLayerIds p
      = alGet ui.overlayToLayerIds p := by
  cases hf : cfg.overlays.find? (fun o => o.id = oid) with
  | none => simp only [activateAfterLoader, hf, setLoading]
  | some o =>
    cases hd : o.deckLayers with
    | none => simp only [activateAfterLoader, hf, hd, setLoading]
    | some specs =>
      simp only [activateAfterLoader, hf, hd, createAndStoreDeckLayers, setLoading]
      exact alGet_alSet_ne _ _ _ _ hp

theorem activateAfterLoader_deck_keys_nodup (cfg : Config) (store : StoreState)
    (ui : UIState) (oid : String) (h : (ui.deckLayers.map Prod.fst).Nodup) :
    ((activateAfterLoader cfg store ui oid).deckLayers.map Prod.fst).Nodup := by
  cases hf : cfg.overlays.find? (fun o => o.id = oid) with
  | none => simpa only [activateAfterLoader, hf, setLoading] using h
  | some o =>
    cases hd : o.deckLayers with
    | none => simpa only [activateAfterLoader, hf, hd, setLoading] using h
    | some specs =>
      simp only [activateAfterLoader, hf, hd, createAndStoreDeckLayers, setLoading]
      exact buildLayers_keys_nodup _ specs _ []
        (((alDelAll_sublist _ ui.deckLayers).map Prod.fst).nodup h)

/-- C7: starting from a hidden overlay with no loader and no forced base,
inside its zoom range, a first showOverlay materialises exactly the ids of
its successfully built layers; an immediate second showOverlay hits the
already-visible guard and returns success with the state unchanged and no
event, and the layer-instance map keeps duplicate-free keys throughout. -/
theorem reactivation_noop (cfg : Config) (zoom : ℚ) (st : St) (id : String)
    (o : Overlay) (specs : List LayerSpec)
    (hfind : cfg.overlays.find? (fun x => x.id = id) = some o)
    (hnoloader : o.onChecked = none)
    (hforced : o.forcedBaseLayerId = none)
    (hspecs : o.deckLayers = some specs)
    (hzoom : checkZoomConstraints o zoom = true)
    (hnotvis : ovVisible st.store id = false)
    (hkeys : (st.ui.deckLayers.map Prod.fst).Nodup) :
    blsShowOverlay cfg zoom (blsShowOverlay cfg zoom st id true).1 id true
        = ((blsShowOverlay cfg zoom st id true).1, [], true)
    ∧ alGet (blsShowOverlay cfg zoom st id true).1.ui.overlayToLayerIds id
        = some (okLayerIds specs)
    ∧ (((blsShowOverlay cfg zoom st id true).1.ui.deckLayers.map Prod.fst).Nodup) := by
  have h1 : blsShowOverlay cfg zoom st id true = blsShowOverlayRun cfg zoom st id true := by
    simp [blsShowOverlay, hnotvis]
  have hz := updateZoomFiltering_fst cfg (setLoading st.ui id true) zoom id o hfind
  rw [hzoom] at hz
  have hpr1store : (blsShowOverlay cfg zoom st id true).1.store
      = storeSetOverlayVisibility st.store id true := by
    rw [h1]
    show (activateOverlay cfg zoom
      ({ st with store := storeSetOverlayVisibility st.store id true }) id true).1.store = _
    exact activateOverlay_store cfg zoom _ id o true hfind hforced
  have hpr1ui : (blsShowOverlay cfg zoom st id true).1.ui
      = activateAfterLoader cfg (storeSetOverlayVisibility st.store id true)
          (updateZoomFiltering cfg (setLoading st.ui id true) zoom id).2 id := by
    rw [h1]
    show (activateOverlay cfg zoom
      ({ st with store := storeSetOverlayVisibility st.store id true }) id true).1.ui = _
    rw [activateOverlay_eq_main cfg zoom _ id o true hfind hforced]
    simp [activateMain, hz, hnoloader]
  have hvis2 : ovVisible (blsShowOverlay cfg zoom st id true).1.store id = true := by
    rw [hpr1store]
    exact ovVisible_setVisibility_self st.store id true
  have hsecond : blsShowOverlay cfg zoom (blsShowOverlay cfg zoom st id true).1 id true
      = ((blsShowOverlay cfg zoom st id true).1, [], true) := by
    generalize hX : (blsShowOverlay cfg zoom st id true).1 = X at hvis2 ⊢
    simp [blsShowOverlay, hvis2]
  refine ⟨hsecond, ?_, ?_⟩
  · rw [hpr1ui]
    exact activateAfterLoader_o2l_self _ _ _ _ o specs hfind hspecs
  · rw [hpr1ui]
    refine activateAfterLoader_deck_keys_nodup _ _ _ _ ?_
    rw [(updateZoomFiltering_preserves cfg (setLoading st.ui id true) zoom id).1]
    exact hkeys

/-- Overlay for the re-entrancy witness: one deck layer, no loader. -/
def ovW : Overlay := { id := "w", deckLayers := some [{ id := "wl", ok := true }] }

/-- Configuration for the re-entrancy witness. -/
def cfgW : Config := { overlays := [ovW], baseStyles := [] }

/-- Witness for the re-entrancy theorem: a concrete double show of w
leaves one owned layer list and a no-op second call. -/
theorem reactivation_noop_witness :
    blsShowOverlay cfgW 0 (blsShowOverlay cfgW 0 st0 "w" true).1 "w" true
      = ((blsShowOverlay cfgW 0 st0 "w" true).1, [], true)
    ∧ alGet (blsShowOverlay cfgW 0 st0 "w" true).1.ui.overlayToLayerIds "w"
      = some ["wl"] := by
  have h := reactivation_noop cfgW 0 st0 "w" ovW [{ id := "wl", ok := true }]
    (by decide) (by decide) (by decide) (by decide) (by decide) (by decide) (by decide)
  exact ⟨h.1, by rw [h.2.1]; rfl⟩

theorem buildLayers_preserves_isSome (op : ℚ) (specs : List LayerSpec)
    (m : AList DeckLayer) (ids : List String) (l : String)
    (h : (alGet m l).isSome) : (alGet (buildLayers op specs m ids).1 l).isSome := by
  induction specs generalizing m ids with
  | nil => exact h
  | cons lc rest ih =>
    by_cases hok : lc.ok
    · rw [buildLayers, createDeckLayer, if_pos hok]
      apply ih
      rw [alGet_alSet]
      split_ifs with he
      · simp
      · exact h
    · rw [buildLayers, createDeckLayer, if_neg hok]
      exact ih _ _ h

theorem buildLayers_ids_isSome (op : ℚ) (specs : List LayerSpec)
    (m : AList DeckLayer) (ids : List String)
    (h : ∀ l ∈ ids, (alGet m l).isSome) :
    ∀ l ∈ (buildLayers op specs m ids).2,
      (alGet (buildLayers op specs m ids).1 l).isSome := by
  induction specs generalizing m ids with
  | nil => exact h
  | cons lc rest ih =>
    by_cases hok : lc.ok
    · rw [buildLayers, createDeckLayer, if_pos hok]
      apply ih
      intro l hl
      rw [alGet_alSet]
      split_ifs with he
      · simp
      · rcases List.mem_append.mp hl with h1 | h1
        · exact h l h1
        · simp at h1
          exact absurd h1 he
    · rw [buildLayers, createDeckLayer, if_neg hok]
      exact ih _ _ h

theorem cloneOpacity_isSome (op : ℚ) (lids : List String) (m : AList DeckLayer)
    (l : String) (h : (alGet m l).isSome) :
    (alGet (cloneOpacity op lids m) l).isSome := by
  induction lids generalizing m with
  | nil => exact h
  | cons lid rest ih =>
    cases hg : alGet m lid with
    | none =>
      simp only [cloneOpacity, hg]
      exact ih m h
    | some dl =>
      simp only [cloneOpacity, hg]
      apply ih
      rw [alGet_alSet]
      split_ifs with he
      · simp
      · exact h

/-- C1 (amended): the registry invariant is preserved by layer
materialisation and by opacity updates, and deactivation both preserves it
and removes exactly the deactivated overlay's owned layer ids from both
mappings, leaving every other overlay's entries untouched — all under the
ownership-disjointness hypothesis that no other overlay's owned list
shares ids with the affected overlay. The invariant does not survive
zoom-filter visible-to-filtered transitions, which is the correction to
the original claim. -/
theorem registry_invariant_amended :
    (∀ (store : StoreState) (ui : UIState) (oid : String) (specs : List LayerSpec),
      registryInv ui →
      (∀ oid2 lids2, oid2 ≠ oid → alGet ui.overlayToLayerIds oid2 = some lids2 →
        ∀ l ∈ lids2, l ∉ (alGet ui.overlayToLayerIds oid).getD []) →
      registryInv (createAndStoreDeckLayers store ui oid specs))
    ∧ (∀ (ui : UIState) (oid : String),
      registryInv ui →
      (∀ oid2 lids2, oid2 ≠ oid → alGet ui.overlayToLayerIds oid2 = some lids2 →
        ∀ l ∈ lids2, l ∉ (alGet ui.overlayToLayerIds oid).getD []) →
      registryInv (deactivateOverlay ui oid)
      ∧ alGet (deactivateOverlay ui oid).overlayToLayerIds oid = none
      ∧ (∀ oid2, oid2 ≠ oid →
          alGet (deactivateOverlay ui oid).overlayToLayerIds oid2
            = alGet ui.overlayToLayerIds oid2)
      ∧ (∀ l ∈ (alGet ui.overlayToLayerIds oid).getD [],
          alGet (deactivateOverlay ui oid).deckLayers l = none)
      ∧ (∀ l, l ∉ (alGet ui.overlayToLayerIds oid).getD [] →
          alGet (deactivateOverlay ui oid).deckLayers l = alGet ui.deckLayers l))
    ∧ (∀ (ui : UIState) (oid : String) (op : ℚ),
      registryInv ui → registryInv (updateOverlayOpacityUI ui oid op)) := by
  refine ⟨?_, ?_, ?_⟩
  · intro store ui oid specs hinv hdisj
    intro oid2 lids2 hget2 l hl
    simp only [createAndStoreDeckLayers] at hget2 ⊢
    rw [alGet_alSet] at hget2
    split_ifs at hget2 with he
    · subst he
      injection hget2 with hget2
      subst hget2
      exact buildLayers_ids_isSome _ specs _ [] (by intro l2 hl2; simp at hl2) l hl
    · apply buildLayers_preserves_isSome
      rw [alGet_alDelAll]
      split_ifs with hmem
      · exact absurd hmem (hdisj oid2 lids2 he hget2 l hl)
      · exact hinv oid2 lids2 hget2 l hl
  · intro ui oid hinv hdisj
    cases hown : alGet ui.overlayToLayerIds oid with
    | none =>
      have hdeck : (deactivateOverlay ui oid).deckLayers = ui.deckLayers := by
        simp only [deactivateOverlay, hown, setLoading]
      have ho2l : (deactivateOverlay ui oid).overlayToLayerIds
          = ui.overlayToLayerIds := by
        simp only [deactivateOverlay, hown, setLoading]
      refine ⟨?_, ?_, ?_, ?_, ?_⟩
      · intro oid2 lids2 hget2 l hl
        rw [ho2l] at hget2
        rw [hdeck]
        exact hinv oid2 lids2 hget2 l hl
      · rw [ho2l]
        exact hown
      · intro oid2 h2
        rw [ho2l]
      · intro l hl
        simp at hl
      · intro l hl
        rw [hdeck]
    | some lids =>
      have hdeck : (deactivateOverlay ui oid).deckLayers
          = alDelAll lids ui.deckLayers := by
        simp only [deactivateOverlay, hown, setLoading]
      have ho2l : (deactivateOverlay ui oid).overlayToLayerIds
          = alDel ui.overlayToLayerIds oid := by
        simp only [deactivateOverlay, hown, setLoading]
      have hgd : (alGet ui.overlayToLayerIds oid).getD [] = lids := by
        rw [hown]
        rfl
      refine ⟨?_, ?_, ?_, ?_, ?_⟩
      · intro oid2 lids2 hget2 l hl
        rw [ho2l, alGet_alDel] at hget2
        rw [hdeck]
        split_ifs at hget2 with he
        rw [alGet_alDelAll]
        split_ifs with hmem
        · rw [hgd] at hdisj
          exact absurd hmem (hdisj oid2 lids2 he hget2 l hl)
        · exact hinv oid2 lids2 hget2 l hl
      · rw [ho2l]
        exact alGet_alDel_self _ _
      · intro oid2 h2
        rw [ho2l]
        exact alGet_alDel_ne _ _ _ h2
      · intro l hl
        simp only [Option.getD_some] at hl
        rw [hdeck, alGet_alDelAll, if_pos hl]
      · intro l hl
        simp only [Option.getD_some] at hl
        rw [hdeck, alGet_alDelAll, if_neg hl]
  · intro ui oid op hinv
    cases hown : alGet ui.overlayToLayerIds oid with
    | none =>
      intro oid2 lids2 hget2 l hl
      simp only [updateOverlayOpacityUI, hown] at hget2 ⊢
      exact hinv oid2 lids2 hget2 l hl
    | some lids =>
      intro oid2 lids2 hget2 l hl
      simp only [updateOverlayOpacityUI, hown] at hget2 ⊢
      exact cloneOpacity_isSome op lids _ l (hinv oid2 lids2 hget2 l hl)

/-- Witness for the amended registry-invariant theorem: a concrete
materialisation, deactivation and opacity update from the empty UI state
keep the invariant. -/
theorem registry_invariant_amended_witness :
    registryInv (createAndStoreDeckLayers store0 ui0 "a" [{ id := "L", ok := true }])
    ∧ registryInv (deactivateOverlay ui0 "a")
    ∧ registryInv (updateOverlayOpacityUI ui0 "a" 1) := by
  have hinv0 : registryInv ui0 := by
    intro oid lids h
    simp [ui0, alGet] at h
  have hdisj0 : ∀ oid2 lids2, oid2 ≠ "a" →
      alGet ui0.overlayToLayerIds oid2 = some lids2 →
      ∀ l ∈ lids2, l ∉ (alGet ui0.overlayToLayerIds "a").getD [] := by
    intro oid2 lids2 h2 hget
    simp [ui0, alGet] at hget
  exact ⟨registry_invariant_amended.1 store0 ui0 "a" _ hinv0 hdisj0,
    (registry_invariant_amended.2.1 ui0 "a" hinv0 hdisj0).1,
    registry_invariant_amended.2.2 ui0 "a" 1 hinv0⟩

theorem find_self_of_nodup (l : List Overlay) (o : Overlay)
    (hnd : (l.map (fun x => x.id)).Nodup) (hmem : o ∈ l) :
    l.find? (fun x => x.id = o.id) = some o := by
  induction l with
  | nil => simp at hmem
  | cons p rest ih =>
    rw [List.map_cons, List.nodup_cons] at hnd
    rcases List.mem_cons.mp hmem with h | h
    · subst h
      simp [List.find?]
    · have hne : ¬ (p.id = o.id) := by
        intro he
        exact hnd.1 (he ▸ List.mem_map_of_mem (fun x => x.id) h)
      have hd : (decide (p.id = o.id)) = false := by simp [hne]
      simp only [List.find?, hd]
      exact ih hnd.2 h

theorem ovVisible_congr (s1 s2 : StoreState) (id : String)
    (h : alGet s1.overlays id = alGet s2.overlays id) :
    ovVisible s1 id = ovVisible s2 id := by
  unfold ovVisible
  rw [h]

theorem ovVisible_setGroupVisibility (s : StoreState) (g : String) (v : Bool)
    (id : String) : ovVisible (storeSetGroupVisibility s g v) id = ovVisible s id := rfl

theorem activateMain_o2l_other (cfg : Config) (zoom : ℚ) (st : St) (oid : String)
    (o : Overlay) (p : String) (hp : p ≠ oid) :
    alGet (activateMain cfg zoom st oid o).1.ui.overlayToLayerIds p
      = alGet st.ui.overlayToLayerIds p := by
  have hpz := (updateZoomFiltering_preserves cfg st.ui zoom oid).2.1
  unfold activateMain
  cases hq : (updateZoomFiltering cfg st.ui zoom oid).1
  · simp only [hq]
    show alGet (updateZoomFiltering cfg st.ui zoom oid).2.overlayToLayerIds p
      = alGet st.ui.overlayToLayerIds p
    rw [hpz]
  · cases hc : o.onChecked with
    | none =>
      simp only [hq, hc]
      show alGet (activateAfterLoader cfg st.store
          (updateZoomFiltering cfg st.ui zoom oid).2 oid).overlayToLayerIds p
        = alGet st.ui.overlayToLayerIds p
      rw [activateAfterLoader_o2l_other _ _ _ _ _ hp, hpz]
    | some out =>
      cases out with
      | resolve =>
        simp only [hq, hc]
        show alGet (activateAfterLoader cfg st.store
            (updateZoomFiltering cfg st.ui zoom oid).2 oid).overlayToLayerIds p
          = alGet st.ui.overlayToLayerIds p
        rw [activateAfterLoader_o2l_other _ _ _ _ _ hp, hpz]
      | reject msg =>
        simp only [hq, hc]
        show alGet (updateZoomFiltering cfg st.ui zoom oid).2.overlayToLayerIds p
          = alGet st.ui.overlayToLayerIds p
        rw [hpz]

theorem activateMain_o2l_self (cfg : Config) (zoom : ℚ) (st : St) (oid : String)
    (o : Overlay) (specs : List LayerSpec)
    (hfind : cfg.overlays.find? (fun x => x.id = oid) = some o)
    (hnc : o.onChecked = none)
    (hzoom : checkZoomConstraints o zoom = true)
    (hspecs : o.deckLayers = some specs) :
    alGet (activateMain cfg zoom st oid o).1.ui.overlayToLayerIds oid
      = some (okLayerIds specs) := by
  have hz := updateZoomFiltering_fst cfg st.ui zoom oid o hfind
  rw [hzoom] at hz
  simp only [activateMain, hz, hnc]
  show alGet (activateAfterLoader cfg st.store
      (updateZoomFiltering cfg st.ui zoom oid).2 oid).overlayToLayerIds oid
    = some (okLayerIds specs)
  exact activateAfterLoader_o2l_self _ _ _ _ o specs hfind hspecs

theorem activateOverlay_o2l_other (cfg : Config) (zoom : ℚ) (st : St) (oid : String)
    (o : Overlay) (isUser : Bool) (p : String) (hp : p ≠ oid)
    (hfind : cfg.overlays.find? (fun x => x.id = oid) = some o)
    (hforced : o.forcedBaseLayerId = none) :
    alGet (activateOverlay cfg zoom st oid isUser).1.ui.overlayToLayerIds p
      = alGet st.ui.overlayToLayerIds p := by
  rw [activateOverlay_eq_main cfg zoom st oid o isUser hfind hforced]
  exact activateMain_o2l_other cfg zoom _ oid o p hp

theorem activateOverlay_o2l_self (cfg : Config) (zoom : ℚ) (st : St) (oid : String)
    (o : Overlay) (isUser : Bool) (specs : List LayerSpec)
    (hfind : cfg.overlays.find? (fun x => x.id = oid) = some o)
    (hnc : o.onChecked = none)
    (hforced : o.forcedBaseLayerId = none)
    (hzoom : checkZoomConstraints o zoom = true)
    (hspecs : o.deckLayers = some specs) :
    alGet (activateOverlay cfg zoom st oid isUser).1.ui.overlayToLayerIds oid
      = some (okLayerIds specs) := by
  rw [activateOverlay_eq_main cfg zoom st oid o isUser hfind hforced]
  exact activateMain_o2l_self cfg zoom _ oid o specs hfind hnc hzoom hspecs

theorem deactivateOverlay_o2l_self (ui : UIState) (oid : String) :
    alGet (deactivateOverlay ui oid).overlayToLayerIds oid = none := by
  cases hown : alGet ui.overlayToLayerIds oid with
  | none =>
    simp only [deactivateOverlay, hown, setLoading]
  | some lids =>
    simp only [deactivateOverlay, hown, setLoading]
    exact alGet_alDel_self _ _

theorem deactivateOverlay_o2l_other (ui : UIState) (oid p : String) (hp : p ≠ oid) :
    alGet (deactivateOverlay ui oid).overlayToLayerIds p
      = alGet ui.overlayToLayerIds p := by
  cases hown : alGet ui.overlayToLayerIds oid with
  | none =>
    simp only [deactivateOverlay, hown, setLoading]
  | some lids =>
    simp only [deactivateOverlay, hown, setLoading]
    exact alGet_alDel_ne _ _ _ hp

theorem groupOnStep_frame (cfg : Config) (zoom : ℚ) (anyVis : Bool)
    (acc : St × List Ev) (o : Overlay) (p : String) (hp : p ≠ o.id)
    (hfind : cfg.overlays.find? (fun x => x.id = o.id) = some o)
    (hforced : o.forcedBaseLayerId = none) :
    alGet (groupOnStep cfg zoom anyVis acc o).1.store.overlays p
      = alGet acc.1.store.overlays p
    ∧ alGet (groupOnStep cfg zoom anyVis acc o).1.ui.overlayToLayerIds p
      = alGet acc.1.ui.overlayToLayerIds p := by
  simp only [groupOnStep]
  set s1 : St := if !anyVis
    then { acc.1 with store := storeSetOverlayVisibility acc.1.store o.id true }
    else acc.1 with hs1
  have hss : alGet s1.store.overlays p = alGet acc.1.store.overlays p := by
    rw [hs1]
    split_ifs
    · exact storeSetOverlayVisibility_other _ _ _ _ hp
    · rfl
  have hsui : s1.ui = acc.1.ui := by
    rw [hs1]
    split_ifs <;> rfl
  by_cases hv : ovVisible s1.store o.id = true
  · rw [if_pos hv]
    constructor
    · rw [activateOverlay_store cfg zoom s1 o.id o false hfind hforced]
      exact hss
    · rw [activateOverlay_o2l_other cfg zoom s1 o.id o false p hp hfind hforced, hsui]
  · rw [if_neg hv]
    exact ⟨hss, by rw [hsui]⟩

theorem groupOnStep_self (cfg : Config) (zoom : ℚ) (anyVis : Bool)
    (acc : St × List Ev) (o : Overlay) (specs : List LayerSpec)
    (hfind : cfg.overlays.find? (fun x => x.id = o.id) = some o)
    (hnc : o.onChecked = none)
    (hforced : o.forcedBaseLayerId = none)
    (hzoom : checkZoomConstraints o zoom = true)
    (hspecs : o.deckLayers = some specs) :
    (anyVis = false →
      ovVisible (groupOnStep cfg zoom anyVis acc o).1.store o.id = true
      ∧ alGet (groupOnStep cfg zoom anyVis acc o).1.ui.overlayToLayerIds o.id
          = some (okLayerIds specs))
    ∧ (anyVis = true → ovVisible acc.1.store o.id = true →
      ovVisible (groupOnStep cfg zoom anyVis acc o).1.store o.id = true
      ∧ alGet (groupOnStep cfg zoom anyVis acc o).1.ui.overlayToLayerIds o.id
          = some (okLayerIds specs))
    ∧ (anyVis = true → ovVisible acc.1.store o.id = false →
      (groupOnStep cfg zoom anyVis acc o).1 = acc.1) := by
  refine ⟨fun hav => ?_, fun hav hvis => ?_, fun hav hvis => ?_⟩
  · subst hav
    simp only [groupOnStep, Bool.not_false, if_true]
    have hv : ovVisible (storeSetOverlayVisibility acc.1.store o.id true) o.id = true :=
      ovVisible_setVisibility_self _ _ _
    rw [if_pos hv]
    constructor
    · have hst := activateOverlay_store cfg zoom
        ({ acc.1 with store := storeSetOverlayVisibility acc.1.store o.id true })
        o.id o false hfind hforced
      unfold ovVisible
      rw [hst]
      rw [show (({ acc.1 with store := storeSetOverlayVisibility acc.1.store o.id true }
          : St)).store = storeSetOverlayVisibility acc.1.store o.id true from rfl,
        storeSetOverlayVisibility_self]
    · exact activateOverlay_o2l_self cfg zoom _ o.id o false specs
        hfind hnc hforced hzoom hspecs
  · subst hav
    simp only [groupOnStep, Bool.not_true, Bool.false_eq_true, if_false]
    rw [if_pos hvis]
    constructor
    · unfold ovVisible
      rw [activateOverlay_store cfg zoom acc.1 o.id o false hfind hforced]
      exact hvis
    · exact activateOverlay_o2l_self cfg zoom _ o.id o false specs
        hfind hnc hforced hzoom hspecs
  · subst hav
    simp only [groupOnStep, Bool.not_true, Bool.false_eq_true, if_false]
    rw [if_neg (by rw [hvis]; exact Bool.false_ne_true)]

theorem groupOffStep_self (acc : St × List Ev) (o : Overlay) :
    ovVisible (groupOffStep acc o).1.store o.id = false
    ∧ alGet (groupOffStep acc o).1.ui.overlayToLayerIds o.id = none := by
  constructor
  · exact ovVisible_setVisibility_self _ _ _
  · exact deactivateOverlay_o2l_self _ _

theorem groupOffStep_frame (acc : St × List Ev) (o : Overlay) (p : String)
    (hp : p ≠ o.id) :
    alGet (groupOffStep acc o).1.store.overlays p = alGet acc.1.store.overlays p
    ∧ alGet (groupOffStep acc o).1.ui.overlayToLayerIds p
      = alGet acc.1.ui.overlayToLayerIds p :=
  ⟨storeSetOverlayVisibility_other _ _ _ _ hp, deactivateOverlay_o2l_other _ _ _ hp⟩

theorem groupOn_fold_frame (cfg : Config) (zoom : ℚ) (anyVis : Bool) :
    ∀ (ms : List Overlay) (acc : St × List Ev) (p : String),
      (∀ o ∈ ms, o.id ≠ p ∧ o.forcedBaseLayerId = none
        ∧ cfg.overlays.find? (fun x => x.id = o.id) = some o) →
      alGet (ms.foldl (groupOnStep cfg zoom anyVis) acc).1.store.overlays p
        = alGet acc.1.store.overlays p
      ∧ alGet (ms.foldl (groupOnStep cfg zoom anyVis) acc).1.ui.overlayToLayerIds p
        = alGet acc.1.ui.overlayToLayerIds p := by
  intro ms
  induction ms with
  | nil =>
    intro acc p _
    exact ⟨rfl, rfl⟩
  | cons a t ih =>
    intro acc p h
    have ha := h a (List.mem_cons_self a t)
    have hstep := groupOnStep_frame cfg zoom anyVis acc a p (Ne.symm ha.1) ha.2.2 ha.2.1
    have hrest := ih (groupOnStep cfg zoom anyVis acc a) p
      (fun o ho => h o (List.mem_cons_of_mem a ho))
    exact ⟨hrest.1.trans hstep.1, hrest.2.trans hstep.2⟩

theorem groupOn_fold (cfg : Config) (zoom : ℚ) (anyVis : Bool) :
    ∀ (ms : List Overlay) (acc : St × List Ev),
      (ms.map (fun x => x.id)).Nodup →
      (∀ o ∈ ms, o.onChecked = none ∧ o.forcedBaseLayerId = none
        ∧ checkZoomConstraints o zoom = true ∧ o.deckLayers.isSome
        ∧ cfg.overlays.find? (fun x => x.id = o.id) = some o) →
      ∀ o ∈ ms,
        (anyVis = false →
          ovVisible (ms.foldl (groupOnStep cfg zoom anyVis) acc).1.store o.id = true
          ∧ alGet (ms.foldl (groupOnStep cfg zoom anyVis) acc).1.ui.overlayToLayerIds
              o.id = some (okLayerIds (o.deckLayers.getD [])))
        ∧ (anyVis = true → ovVisible acc.1.store o.id = true →
          ovVisible (ms.foldl (groupOnStep cfg zoom anyVis) acc).1.store o.id = true
          ∧ alGet (ms.foldl (groupOnStep cfg zoom anyVis) acc).1.ui.overlayToLayerIds
              o.id = some (okLayerIds (o.deckLayers.getD [])))
        ∧ (anyVis = true → ovVisible acc.1.store o.id = false →
          alGet (ms.foldl (groupOnStep cfg zoom anyVis) acc).1.store.overlays o.id
            = alGet acc.1.store.overlays o.id
          ∧ alGet (ms.foldl (groupOnStep cfg zoom anyVis) acc).1.ui.overlayToLayerIds
              o.id = alGet acc.1.ui.overlayToLayerIds o.id) := by
  intro ms
  induction ms with
  | nil =>
    intro acc _ _ o ho
    simp at ho
  | cons a t ih =>
    intro acc hnd hall o ho
    rw [List.map_cons, List.nodup_cons] at hnd
    have haall := hall a (List.mem_cons_self a t)
    obtain ⟨specsa, hspecsa⟩ := Option.isSome_iff_exists.mp haall.2.2.2.1
    rcases List.mem_cons.mp ho with rfl | hot
    · have hself := groupOnStep_self cfg zoom anyVis acc o specsa
        haall.2.2.2.2 haall.1 haall.2.1 haall.2.2.1 hspecsa
      have hframe := groupOn_fold_frame cfg zoom anyVis t
        (groupOnStep cfg zoom anyVis acc o) o.id
        (fun o2 ho2 =>
          ⟨fun he => hnd.1 (he ▸ List.mem_map_of_mem (fun x => x.id) ho2),
           (hall o2 (List.mem_cons_of_mem o ho2)).2.1,
           (hall o2 (List.mem_cons_of_mem o ho2)).2.2.2.2⟩)
      have hok : okLayerIds (o.deckLayers.getD []) = okLayerIds specsa := by
        rw [hspecsa]
        rfl
      refine ⟨fun hav => ?_, fun hav hvis => ?_, fun hav hvis => ?_⟩
      · have hs := hself.1 hav
        exact ⟨(ovVisible_congr _ _ _ hframe.1).trans hs.1,
          by rw [hok]; exact hframe.2.trans hs.2⟩
      · have hs := hself.2.1 hav hvis
        exact ⟨(ovVisible_congr _ _ _ hframe.1).trans hs.1,
          by rw [hok]; exact hframe.2.trans hs.2⟩
      · have hs := hself.2.2 hav hvis
        constructor
        · exact hframe.1.trans (by rw [hs])
        · exact hframe.2.trans (by rw [hs])
    · have hne : o.id ≠ a.id := by
        intro he
        exact hnd.1 (he ▸ List.mem_map_of_mem (fun x => x.id) hot)
      have hstep := groupOnStep_frame cfg zoom anyVis acc a o.id hne
        haall.2.2.2.2 haall.2.1
      have hcongr := ovVisible_congr _ _ o.id hstep.1
      have hres := ih (groupOnStep cfg zoom anyVis acc a) hnd.2
        (fun o2 ho2 => hall o2 (List.mem_cons_of_mem a ho2)) o hot
      refine ⟨fun hav => hres.1 hav, fun hav hvis => ?_, fun hav hvis => ?_⟩
      · exact hres.2.1 hav (hcongr.trans hvis)
      · have h3 := hres.2.2 hav (hcongr.trans hvis)
        exact ⟨h3.1.trans hstep.1, h3.2.trans hstep.2⟩

theorem groupOff_fold_frame :
    ∀ (ms : List Overlay) (acc : St × List Ev) (p : String),
      (∀ o ∈ ms, o.id ≠ p) →
      alGet (ms.foldl groupOffStep acc).1.store.overlays p
        = alGet acc.1.store.overlays p
      ∧ alGet (ms.foldl groupOffStep acc).1.ui.overlayToLayerIds p
        = alGet acc.1.ui.overlayToLayerIds p := by
  intro ms
  induction ms with
  | nil =>
    intro acc p _
    exact ⟨rfl, rfl⟩
  | cons a t ih =>
    intro acc p h
    have hstep := groupOffStep_frame acc a p (Ne.symm (h a (List.mem_cons_self a t)))
    have hrest := ih (groupOffStep acc a) p (fun o ho => h o (List.mem_cons_of_mem a ho))
    exact ⟨hrest.1.trans hstep.1, hrest.2.trans hstep.2⟩

theorem groupOff_fold :
    ∀ (ms : List Overlay) (acc : St × List Ev),
      (ms.map (fun x => x.id)).Nodup →
      ∀ o ∈ ms,
        ovVisible (ms.foldl groupOffStep acc).1.store o.id = false
        ∧ alGet (ms.foldl groupOffStep acc).1.ui.overlayToLayerIds o.id = none := by
  intro ms
  induction ms with
  | nil =>
    intro acc _ o ho
    simp at ho
  | cons a t ih =>
    intro acc hnd o ho
    rw [List.map_cons, List.nodup_cons] at hnd
    rcases List.mem_cons.mp ho with rfl | hot
    · have hself := groupOffStep_self acc o
      have hframe := groupOff_fold_frame t (groupOffStep acc o) o.id
        (fun o2 ho2 he => hnd.1 (he ▸ List.mem_map_of_mem (fun x => x.id) ho2))
      exact ⟨(ovVisible_congr _ _ _ hframe.1).trans hself.1,
        hframe.2.trans hself.2⟩
    · exact ih (groupOffStep acc a) hnd.2 o hot

/-- C5: setGroupVisibility to true with no individually-visible member
sets every member visible and activates each (its owned layer list becomes
the ids of its successfully built layers); with at least one visible
member, only the already-visible members are activated and hidden members
keep both their runtime entry and their ownership entry untouched;
setGroupVisibility to false clears every member's flag and deactivates
every member, regardless of prior state. Members are assumed loader-free,
with no forced base and inside their zoom range, and configured overlay
ids are unique. -/
theorem group_visibility_semantics (cfg : Config) (zoom : ℚ) (st : St) (gid : String)
    (hndcfg : (cfg.overlays.map (fun x => x.id)).Nodup)
    (hmem : ∀ o ∈ groupMembers cfg gid, o.onChecked = none
      ∧ o.forcedBaseLayerId = none ∧ checkZoomConstraints o zoom = true
      ∧ o.deckLayers.isSome) :
    ((∀ o ∈ groupMembers cfg gid, ovVisible st.store o.id = false) →
      ∀ o ∈ groupMembers cfg gid,
        ovVisible (blsSetGroupVisibility cfg zoom st gid true).1.store o.id = true
        ∧ alGet (blsSetGroupVisibility cfg zoom st gid true).1.ui.overlayToLayerIds
            o.id = some (okLayerIds (o.deckLayers.getD [])))
    ∧ ((∃ o ∈ groupMembers cfg gid, ovVisible st.store o.id = true) →
      ∀ o ∈ groupMembers cfg gid,
        (ovVisible st.store o.id = true →
          ovVisible (blsSetGroupVisibility cfg zoom st gid true).1.store o.id = true
          ∧ alGet (blsSetGroupVisibility cfg zoom st gid true).1.ui.overlayToLayerIds
              o.id = some (okLayerIds (o.deckLayers.getD [])))
        ∧ (ovVisible st.store o.id = false →
          alGet (blsSetGroupVisibility cfg zoom st gid true).1.store.overlays o.id
            = alGet st.store.overlays o.id
          ∧ alGet (blsSetGroupVisibility cfg zoom st gid true).1.ui.overlayToLayerIds
              o.id = alGet st.ui.overlayToLayerIds o.id))
    ∧ (∀ o ∈ groupMembers cfg gid,
        ovVisible (blsSetGroupVisibility cfg zoom st gid false).1.store o.id = false
        ∧ alGet (blsSetGroupVisibility cfg zoom st gid false).1.ui.overlayToLayerIds
            o.id = none) := by
  have hndm : ((groupMembers cfg gid).map (fun x => x.id)).Nodup :=
    ((List.filter_sublist cfg.overlays).map (fun x => x.id)).nodup hndcfg
  have hfnd : ∀ o ∈ groupMembers cfg gid,
      cfg.overlays.find? (fun x => x.id = o.id) = some o :=
    fun o ho => find_self_of_nodup _ o hndcfg (List.mem_of_mem_filter ho)
  have hall : ∀ o ∈ groupMembers cfg gid, o.onChecked = none
      ∧ o.forcedBaseLayerId = none ∧ checkZoomConstraints o zoom = true
      ∧ o.deckLayers.isSome
      ∧ cfg.overlays.find? (fun x => x.id = o.id) = some o :=
    fun o ho => ⟨(hmem o ho).1, (hmem o ho).2.1, (hmem o ho).2.2.1,
      (hmem o ho).2.2.2, hfnd o ho⟩
  refine ⟨fun hnone o ho => ?_, fun hexists o ho => ?_, fun o ho => ?_⟩
  · have hany : (groupMembers cfg gid).any
        (fun o => ovVisible (storeSetGroupVisibility st.store gid true) o.id) = false := by
      rw [List.any_eq_false]
      intro x hx
      rw [ovVisible_setGroupVisibility]
      simp [hnone x hx]
    have hfold := groupOn_fold cfg zoom
      ((groupMembers cfg gid).any
        (fun o => ovVisible (storeSetGroupVisibility st.store gid true) o.id))
      (groupMembers cfg gid)
      ((⟨st.ui, storeSetGroupVisibility st.store gid true⟩ : St), ([] : List Ev))
      hndm hall o ho
    exact hfold.1 hany
  · obtain ⟨w, hw, hwvis⟩ := hexists
    have hany : (groupMembers cfg gid).any
        (fun o => ovVisible (storeSetGroupVisibility st.store gid true) o.id) = true := by
      rw [List.any_eq_true]
      exact ⟨w, hw, by rw [ovVisible_setGroupVisibility]; exact hwvis⟩
    have hfold := groupOn_fold cfg zoom
      ((groupMembers cfg gid).any
        (fun o => ovVisible (storeSetGroupVisibility st.store gid true) o.id))
      (groupMembers cfg gid)
      ((⟨st.ui, storeSetGroupVisibility st.store gid true⟩ : St), ([] : List Ev))
      hndm hall o ho
    exact ⟨fun hvis => hfold.2.1 hany hvis, fun hvis => hfold.2.2 hany hvis⟩
  · exact groupOff_fold (groupMembers cfg gid)
      ((⟨st.ui, storeSetGroupVisibility st.store gid false⟩ : St), ([] : List Ev))
      hndm o ho

/-- Overlay ga in group g for the group-visibility witness. -/
def ovGa : Overlay :=
  { id := "ga", group := some "g", deckLayers := some [{ id := "la", ok := true }] }

/-- Overlay gb in group g for the group-visibility witness. -/
def ovGb : Overlay :=
  { id := "gb", group := some "g", deckLayers := some [{ id := "lb", ok := true }] }

/-- Configuration for the group-visibility witness. -/
def cfgG : Config := { overlays := [ovGa, ovGb], baseStyles := [] }

/-- Witness for the group-visibility theorem: first activation of group g
turns member ga visible and turning the group off hides member gb. -/
theorem group_visibility_semantics_witness :
    ovVisible (blsSetGroupVisibility cfgG 0 st0 "g" true).1.store "ga" = true
    ∧ ovVisible (blsSetGroupVisibility cfgG 0 st0 "g" false).1.store "gb" = false := by
  have h := group_visibility_semantics cfgG 0 st0 "g" (by decide) (by decide)
  exact ⟨(h.1 (by decide) ovGa (by decide)).1, (h.2.2 ovGb (by decide)).1⟩

end LayerLibre
